import Mathlib

/-!
Formal model of the CropCart browser client (src/scripts/utils.js, duplicated
in src/unnamed/part_002): the guest-cart cache, the session/auth store, and
the guest-cart-to-server synchronization routine, together with proofs of the
specified properties.

Modelling conventions:
- JS numbers are modelled as rationals extended with NaN and signed infinities
  (JNum).  All arithmetic appearing in the verified code paths is exact on
  this domain (floor, max, addition of small integers), so no floating-point
  rounding is involved.
- JS values are modelled by the inductive JsVal (null, undefined, booleans,
  numbers, strings, plain objects as ordered field lists).  Arrays are not
  modelled; none of the verified properties inspect them.
- Browser storage slots hold either nothing, an empty string, a string that
  does not parse as JSON, or a parsed JSON value (Slot).  A Slot.val v stands
  for a stored string whose JSON.parse result is v.
- JSON.stringify followed by JSON.parse is modelled by jsonRound: NaN and the
  infinities become null, object fields whose value is undefined are dropped.
  Note that JSON.parse can itself produce Infinity (for example from the
  literal 1e999), so stored blobs may contain non-finite numbers.
- String conversion of numbers (toJsString) is exact on integers, NaN and the
  infinities; non-integral rationals print in a simplified placeholder form.
  Every verified statement evaluates it only at integer or non-finite values.
- The timestamp new Date().toISOString() is passed in as an explicit
  parameter called now.
- DOM events dispatched by the cart mutators are fire-and-forget and are not
  modelled.
-/

namespace CropCart

/-- Rational addition computed directly through mkRat.  This equals ordinary
addition on ℚ (lemma ratAdd_eq below) but, unlike the library addition, it
reduces inside the kernel, which keeps concrete cart computations decidable
by evaluation. -/
def ratAdd (a b : ℚ) : ℚ :=
  mkRat (a.num * b.den + b.num * a.den) (a.den * b.den)

/-- JS numbers: NaN, the two infinities, or a finite value (as a rational). -/
inductive JNum where
  | nan
  | pinf
  | ninf
  | fin (q : ℚ)
deriving DecidableEq, Repr

namespace JNum

/-- JS truthiness of a number: NaN and 0 are falsy. -/
def truthy : JNum → Bool
  | .nan => false
  | .fin q => decide (q ≠ 0)
  | _ => true

/-- Number.isFinite. -/
def isFiniteJ : JNum → Bool
  | .fin _ => true
  | _ => false

/-- Math.floor (NaN and infinities are fixed points). -/
def jfloor : JNum → JNum
  | .fin q => .fin (⌊q⌋ : ℤ)
  | x => x

/-- Math.max on two numbers: NaN absorbs, otherwise the usual order with
infinities. -/
def jmax : JNum → JNum → JNum
  | .nan, _ => .nan
  | _, .nan => .nan
  | .pinf, _ => .pinf
  | _, .pinf => .pinf
  | .ninf, b => b
  | a, .ninf => a
  | .fin a, .fin b => .fin (max a b)

/-- JS comparison a less-or-equal b: false whenever NaN is involved. -/
def jle : JNum → JNum → Bool
  | .nan, _ => false
  | _, .nan => false
  | .ninf, _ => true
  | _, .pinf => true
  | .pinf, _ => false
  | _, .ninf => false
  | .fin a, .fin b => decide (a ≤ b)

/-- JS addition. -/
def addJ : JNum → JNum → JNum
  | .nan, _ => .nan
  | _, .nan => .nan
  | .pinf, .ninf => .nan
  | .ninf, .pinf => .nan
  | .pinf, _ => .pinf
  | _, .pinf => .pinf
  | .ninf, _ => .ninf
  | _, .ninf => .ninf
  | .fin a, .fin b => .fin (ratAdd a b)

/-- The idiom x || d on numbers: keep x when truthy, else the default. -/
def numOr (a b : JNum) : JNum := if a.truthy then a else b

end JNum

/-- JS whitespace characters recognised by String.prototype.trim. -/
def isJsWs (c : Char) : Bool :=
  c.toNat = 32 || c.toNat = 9 || c.toNat = 10 || c.toNat = 11 ||
  c.toNat = 12 || c.toNat = 13 || c.toNat = 160 ||
  c.toNat = 0x2028 || c.toNat = 0x2029 || c.toNat = 0xFEFF

/-- Strip leading and trailing JS whitespace from a character list. -/
def jsTrimList (l : List Char) : List Char :=
  ((l.dropWhile isJsWs).reverse.dropWhile isJsWs).reverse

/-- Model of String.prototype.trim. -/
def jsTrim (s : String) : String := ⟨jsTrimList s.data⟩

/-- Decimal digit characters of n in reverse order, fuel-bounded so the
definition is structural and kernel-reducible. -/
def natDigitsRevAux : ℕ → ℕ → List Char
  | _, 0 => []
  | 0, _+1 => []
  | f+1, n+1 => Char.ofNat (48 + (n+1) % 10) :: natDigitsRevAux f ((n+1) / 10)

/-- Decimal digit characters of n, most significant first. -/
def natDigitsRev (n : ℕ) : List Char := natDigitsRevAux n n

/-- Decimal string of a natural number. -/
def natToDec (n : ℕ) : String :=
  if n = 0 then "0" else ⟨(natDigitsRev n).reverse⟩

/-- Decimal string of an integer. -/
def intToDec : ℤ → String
  | .ofNat m => natToDec m
  | .negSucc m => "-" ++ natToDec (m + 1)

namespace JNum

/-- Model of the JS String() conversion on numbers.  Exact on integers, NaN
and infinities; non-integral rationals use a placeholder fraction form (no
verified statement evaluates that branch). -/
def toJsString : JNum → String
  | .nan => "NaN"
  | .pinf => "Infinity"
  | .ninf => "-Infinity"
  | .fin q =>
      if q.den = 1 then intToDec q.num
      else intToDec q.num ++ "/" ++ natToDec q.den

end JNum

/-- Parse a nonempty all-digit character list as a natural number. -/
def parseDigits : List Char → Option ℕ
  | [] => none
  | cs =>
      if cs.all Char.isDigit then
        some (cs.foldl (fun a c => a * 10 + (c.toNat - 48)) 0)
      else none

/-- Parse an unsigned decimal literal (digits with an optional dot). -/
def parseUnsignedDec (cs : List Char) : Option ℚ :=
  match cs.splitOn '.' with
  | [a] => (parseDigits a).map (fun n => (n : ℚ))
  | [a, b] =>
      if a = [] && b = [] then none
      else
        match (if a = [] then some 0 else parseDigits a),
              (if b = [] then some 0 else parseDigits b) with
        | some n, some f =>
            some (mkRat ((n : ℤ) * 10 ^ b.length + (f : ℤ)) (10 ^ b.length))
        | _, _ => none
  | _ => none

/-- Model of the JS Number() conversion on strings: trim, empty means 0,
infinity literals, otherwise a signed decimal literal, else NaN.  Hex and
exponent forms are not modelled (no verified property depends on them). -/
def strToNum (s : String) : JNum :=
  let t := jsTrim s
  if t = "" then .fin 0
  else if t = "Infinity" || t = "+Infinity" then .pinf
  else if t = "-Infinity" then .ninf
  else
    match t.data with
    | '+' :: rest =>
        match parseUnsignedDec rest with
        | some q => .fin q
        | none => .nan
    | '-' :: rest =>
        match parseUnsignedDec rest with
        | some q => .fin (-q)
        | none => .nan
    | cs =>
        match parseUnsignedDec cs with
        | some q => .fin q
        | none => .nan

mutual
/-- JS values: null, undefined, booleans, numbers, strings and plain objects.
Object fields are an ordered list of key-value pairs. -/
inductive JsVal where
  | null
  | undefined
  | bool (b : Bool)
  | num (n : JNum)
  | str (s : String)
  | obj (fields : JsFields)

/-- Ordered field list of a JS object. -/
inductive JsFields where
  | nil
  | cons (key : String) (value : JsVal) (rest : JsFields)
end

deriving instance DecidableEq for JsVal

deriving instance DecidableEq for JsFields

namespace JsFields

/-- View the field list as a Lean list. -/
def toList : JsFields → List (String × JsVal)
  | .nil => []
  | .cons k v rest => (k, v) :: rest.toList

/-- Build a field list from a Lean list. -/
def ofList : List (String × JsVal) → JsFields
  | [] => .nil
  | (k, v) :: rest => .cons k v (ofList rest)

/-- First value stored under a key, if any. -/
def lookup (k : String) : JsFields → Option JsVal
  | .nil => none
  | .cons k0 v rest => if k0 = k then some v else rest.lookup k

end JsFields

namespace JsVal

/-- JS truthiness. -/
def truthy : JsVal → Bool
  | .null => false
  | .undefined => false
  | .bool b => b
  | .num n => n.truthy
  | .str s => decide (s ≠ "")
  | .obj _ => true

/-- Property read a.k, yielding undefined for absent keys and for reads on
non-objects (the verified code paths only read known keys and guard nullish
receivers with optional chaining). -/
def getF (a : JsVal) (k : String) : JsVal :=
  match a with
  | .obj fields => (fields.lookup k).getD .undefined
  | _ => .undefined

/-- Optional chaining a?.k. -/
def optChain (a : JsVal) (k : String) : JsVal :=
  match a with
  | .null => .undefined
  | .undefined => .undefined
  | x => x.getF k

/-- Nullish coalescing a ?? b. -/
def nullish (a b : JsVal) : JsVal :=
  match a with
  | .null => b
  | .undefined => b
  | x => x

/-- Logical or a || b. -/
def jsOr (a b : JsVal) : JsVal := if a.truthy then a else b

/-- Number() conversion.  Plain objects convert through their string form
and yield NaN. -/
def toNum : JsVal → JNum
  | .null => .fin 0
  | .undefined => .nan
  | .bool b => .fin (if b then 1 else 0)
  | .num n => n
  | .str s => strToNum s
  | .obj _ => .nan

/-- String() conversion. -/
def toStr : JsVal → String
  | .null => "null"
  | .undefined => "undefined"
  | .bool b => if b then "true" else "false"
  | .num n => n.toJsString
  | .str s => s
  | .obj _ => "[object Object]"

end JsVal

mutual
/-- Model of JSON.stringify followed by JSON.parse on a value: NaN and the
infinities serialise as null, object fields holding undefined are dropped,
everything else is preserved.  A stray top-level undefined is totalised to
null (the verified code never stores one). -/
def jsonRound : JsVal → JsVal
  | .null => .null
  | .undefined => .null
  | .bool b => .bool b
  | .num (.fin q) => .num (.fin q)
  | .num _ => .null
  | .str s => .str s
  | .obj fields => .obj (jsonRoundFields fields)

/-- Field-wise part of jsonRound. -/
def jsonRoundFields : JsFields → JsFields
  | .nil => .nil
  | .cons _ .undefined rest => jsonRoundFields rest
  | .cons k v rest => .cons k (jsonRound v) (jsonRoundFields rest)
end

/-- One browser storage slot for a fixed key: absent, the empty string, a
non-JSON string, or a string parsing to a JSON value. -/
inductive Slot where
  | missing
  | emptyStr
  | malformed
  | val (v : JsVal)

/-- A raw stored string is falsy exactly when the key is absent (getItem
returns null) or holds the empty string. -/
def Slot.falsyRaw : Slot → Bool
  | .missing => true
  | .emptyStr => true
  | _ => false

/-- True when the key holds any stored string at all. -/
def Slot.isStored : Slot → Bool
  | .missing => false
  | _ => true

/-- The browser storage state relevant to the verified components:
the auth record in each of the two scopes, and the guest cart blob. -/
structure World where
  sessionAuth : Slot
  localAuth : Slot
  guestCart : Slot

/-- The world with nothing stored. -/
def emptyWorld : World := ⟨.missing, .missing, .missing⟩

/-- Model of safeJsonParse(raw or "null", null) used for the guest cart:
missing or empty raw parses as null, malformed raw falls back to null. -/
def Slot.parseOrNull : Slot → JsVal
  | .val v => v
  | _ => .null

/-! ## Session/auth store (getAuth, saveAuth, clearAuth, isLoggedIn) -/

/-- Source getAuth: JSON.parse(sessionRaw or localRaw or "null") with a
catch returning null.  A falsy raw string falls through to the next choice;
the literal "null" parses to null; a malformed chosen string yields null via
the catch. -/
def getAuth (w : World) : JsVal :=
  let chosen :=
    if w.sessionAuth.falsyRaw then
      if w.localAuth.falsyRaw then Slot.val .null else w.localAuth
    else w.sessionAuth
  match chosen with
  | .val v => v
  | _ => .null

/-- Source saveAuth(data, remember): no-op when data?.access is falsy,
otherwise stringify the payload into localStorage when remember is set, else
into sessionStorage.  The other scope is untouched. -/
def saveAuth (data : JsVal) (remember : Bool) (now : String) (w : World) : World :=
  let access := (data.optChain "access").jsOr .null
  if !access.truthy then w
  else
    let refresh := (data.optChain "refresh").jsOr .null
    let payload : JsVal := .obj (.ofList
      [("access", access), ("refresh", refresh),
       ("user", (data.optChain "user").jsOr .null), ("savedAt", .str now)])
    let stored := Slot.val (jsonRound payload)
    if remember then { w with localAuth := stored }
    else { w with sessionAuth := stored }

/-- Source clearAuth: remove the auth key from both scopes. -/
def clearAuth (w : World) : World :=
  { w with sessionAuth := .missing, localAuth := .missing }

/-- Source isLoggedIn: truthiness of getAuth()?.access. -/
def isLoggedIn (w : World) : Bool := ((getAuth w).optChain "access").truthy

/-! ## Guest cart data model -/

/-- Bounded product snapshot cached with a guest cart entry
(toGuestProductSnapshot output shape). -/
structure Snapshot where
  id : JNum
  name : String
  price : JNum
  unit : String
  photo_url : String
  farm_name : String
deriving DecidableEq, Repr

/-- One normalized guest cart entry: quantity plus cached snapshot. -/
structure GuestItem where
  qty : JNum
  product : Snapshot
deriving DecidableEq, Repr

/-- The normalized guest cart as produced by getGuestCart: an ordered
key-to-entry map plus the stored timestamp value. -/
structure Cart where
  items : List (String × GuestItem)
  updatedAt : JsVal

/-- Source toGuestProductSnapshot(rawProduct): field-wise normalization with
nullish fallbacks, Number() on id and price, String().trim() on the text
fields. -/
def toGuestProductSnapshot (rawProduct : JsVal) : Snapshot :=
  let p := rawProduct.jsOr (.obj .nil)
  { id := ((p.getF "id").nullish ((p.getF "product_id").nullish (.num (.fin 0)))).toNum
    name := jsTrim ((p.getF "name").nullish ((p.getF "product_name").nullish (.str ""))).toStr
    price := ((p.getF "price").nullish ((p.getF "unit_price").nullish (.num (.fin 0)))).toNum
    unit := jsTrim ((p.getF "unit").nullish ((p.getF "unit_name").nullish (.str ""))).toStr
    photo_url := jsTrim ((p.getF "photo_url").nullish (.str "")).toStr
    farm_name := jsTrim ((p.getF "farm_name").nullish ((p.getF "farm").nullish (.str ""))).toStr }

/-- Lookup in the normalized items map (first entry with the given key). -/
def listGet : List (String × GuestItem) → String → Option GuestItem
  | [], _ => none
  | kv :: rest, k => if kv.1 = k then some kv.2 else listGet rest k

/-- JS object assignment on the normalized items map: overwrite in place when
the key exists, otherwise append. -/
def listSet (items : List (String × GuestItem)) (k : String) (it : GuestItem) :
    List (String × GuestItem) :=
  if items.any (fun kv => kv.1 = k) then
    items.map (fun kv => if kv.1 = k then (k, it) else kv)
  else items ++ [(k, it)]

/-- JS delete on the normalized items map. -/
def listDel (items : List (String × GuestItem)) (k : String) :
    List (String × GuestItem) :=
  items.filter (fun kv => kv.1 ≠ k)

/-- The quantity normalization applied by getGuestCart to one stored entry:
Math.max(0, Math.floor(Number(v?.qty) or 0)). -/
def normQty (v : JsVal) : JNum :=
  JNum.jmax (.fin 0) (((v.optChain "qty").toNum.numOr (.fin 0)).jfloor)

/-- The snapshot normalization applied by getGuestCart to one stored entry:
toGuestProductSnapshot(v?.product or empty), then patch a falsy id from the
key. -/
def normProduct (productId : String) (v : JsVal) : Snapshot :=
  let product := toGuestProductSnapshot ((v.optChain "product").jsOr (.obj .nil))
  if !product.id.truthy then { product with id := strToNum productId }
  else product

/-- The normalization loop of getGuestCart over the stored items object:
skip entries whose trimmed key is empty or whose normalized quantity is not
positive, keep the rest under the trimmed key. -/
def normalizeItems : List (String × JsVal) → List (String × GuestItem) →
    List (String × GuestItem)
  | [], acc => acc
  | (k, v) :: rest, acc =>
      let productId := jsTrim k
      if productId = "" then normalizeItems rest acc
      else
        let qty := normQty v
        if qty.jle (.fin 0) then normalizeItems rest acc
        else normalizeItems rest
          (listSet acc productId { qty := qty, product := normProduct productId v })

/-- Source getGuestCart: parse the stored blob, take its items object when it
is one, normalize every entry, and surface updatedAt or null. -/
def getGuestCart (w : World) : Cart :=
  let data := w.guestCart.parseOrNull
  let itemsFields : List (String × JsVal) :=
    match data.optChain "items" with
    | .obj fs => fs.toList
    | _ => []
  { items := normalizeItems itemsFields []
    updatedAt := (data.optChain "updatedAt").jsOr .null }

/-- JSON encoding of a snapshot as stored by setGuestCart (before the
stringify-parse round trip). -/
def encodeSnapshot (s : Snapshot) : JsVal :=
  .obj (.ofList
    [("id", .num s.id), ("name", .str s.name), ("price", .num s.price),
     ("unit", .str s.unit), ("photo_url", .str s.photo_url),
     ("farm_name", .str s.farm_name)])

/-- JSON encoding of one items-map entry. -/
def encodeItem (it : GuestItem) : JsVal :=
  .obj (.ofList [("qty", .num it.qty), ("product", encodeSnapshot it.product)])

/-- JSON encoding of the items map. -/
def encodeItems (items : List (String × GuestItem)) : JsFields :=
  .ofList (items.map (fun kv => (kv.1, encodeItem kv.2)))

/-- Source setGuestCart(cart): persist the payload with a fresh timestamp;
the stored string is modelled by the stringify-parse round trip of the
payload.  (The cart argument is the normalized structure, so the items guard
in the source always takes the object branch.) -/
def setGuestCart (cart : Cart) (now : String) (w : World) : World :=
  let payload : JsVal :=
    .obj (.ofList [("items", .obj (encodeItems cart.items)), ("updatedAt", .str now)])
  { w with guestCart := .val (jsonRound payload) }

/-- Source clearGuestCart: remove the guest cart key entirely. -/
def clearGuestCart (w : World) : World := { w with guestCart := .missing }

/-- Source addGuestItem(rawProduct, qtyToAdd): no-op when the snapshot id is
falsy; otherwise add Math.max(1, Math.floor(Number(qtyToAdd) or 1)) to the
existing quantity (0 when absent or falsy) and overwrite the snapshot. -/
def addGuestItem (rawProduct : JsVal) (qtyToAdd : JsVal) (now : String)
    (w : World) : World :=
  let snap := toGuestProductSnapshot rawProduct
  let id := jsTrim ((JsVal.num snap.id).jsOr (.str "")).toStr
  if id = "" then w
  else
    let qty := JNum.jmax (.fin 1) ((qtyToAdd.toNum.numOr (.fin 1)).jfloor)
    let cart := getGuestCart w
    let current : JNum :=
      match listGet cart.items id with
      | some it => if it.qty.truthy then it.qty else .fin 0
      | none => .fin 0
    let newItem : GuestItem := { qty := current.addJ qty, product := snap }
    setGuestCart { cart with items := listSet cart.items id newItem } now w

/-- Source setGuestItemQty(productId, nextQty): no-op on a falsy or
whitespace id; a clamped quantity of zero deletes the entry; a positive
clamped quantity overwrites the quantity of an existing entry; a missing
entry is left as is. -/
def setGuestItemQty (productId : JsVal) (nextQty : JsVal) (now : String)
    (w : World) : World :=
  let id := jsTrim (productId.jsOr (.str "")).toStr
  if id = "" then w
  else
    let qty := JNum.jmax (.fin 0) ((nextQty.toNum.numOr (.fin 0)).jfloor)
    let cart := getGuestCart w
    let items :=
      if qty.jle (.fin 0) then listDel cart.items id
      else if (listGet cart.items id).isSome then
        cart.items.map (fun kv => if kv.1 = id then (kv.1, { kv.2 with qty := qty }) else kv)
      else cart.items
    setGuestCart { cart with items := items } now w

/-- Source removeGuestItem(productId): setGuestItemQty(productId, 0). -/
def removeGuestItem (productId : JsVal) (now : String) (w : World) : World :=
  setGuestItemQty productId (.num (.fin 0)) now w

/-- Source listGuestItems: project the normalized entries for rendering,
with Number(x.qty) or 0 on the quantity (the snapshot is always an object,
so the product fallback never fires). -/
def listGuestItems (w : World) : List GuestItem :=
  (getGuestCart w).items.map (fun kv =>
    { qty := kv.2.qty.numOr (.fin 0), product := kv.2.product })

/-! ## Guest cart synchronization (syncGuestCartToServer) -/

/-- Normalized HTTP response as produced by apiRequest: the status code,
with ok meaning a 2xx status (fetch Response.ok). -/
structure Resp where
  status : ℕ
deriving DecidableEq, Repr

/-- Response.ok: status in the 2xx range. -/
def Resp.ok (r : Resp) : Bool := decide (200 ≤ r.status ∧ r.status < 300)

/-- The JSON body of one POST /cart/add/ request issued by the sync loop. -/
structure CartAddRequest where
  product_id : JNum
  quantity : JNum
deriving DecidableEq, Repr

/-- The result object of syncGuestCartToServer.  The source sets the
unauthorized field only on the 401 path; its absence is modelled as false. -/
structure SyncResult where
  synced : ℕ
  attempted : ℕ
  unauthorized : Bool
deriving DecidableEq, Repr

/-- The skip condition of the sync loop:
not Number.isFinite(productId) or productId less-or-equal 0. -/
def skipCond (row : GuestItem) : Bool :=
  !row.product.id.isFiniteJ || row.product.id.jle (.fin 0)

/-- The request body built for one non-skipped entry. -/
def reqOf (row : GuestItem) : CartAddRequest :=
  { product_id := row.product.id
    quantity := JNum.jmax (.fin 1) ((row.qty.numOr (.fin 1)).jfloor) }

/-- The sequential request loop of syncGuestCartToServer.  The argument i
counts previously issued requests and indexes the environment of responses;
the result is the final synced counter, the list of issued request bodies,
and whether the loop halted on a 401. -/
def syncLoop (responses : ℕ → Resp) : List GuestItem → ℕ → ℕ →
    ℕ × List CartAddRequest × Bool
  | [], _, synced => (synced, [], false)
  | row :: rest, i, synced =>
      if skipCond row then syncLoop responses rest i synced
      else
        let res := responses i
        if res.status = 401 then (synced, [reqOf row], true)
        else
          let out := syncLoop responses rest (i + 1)
            (synced + if res.ok then 1 else 0)
          (out.1, reqOf row :: out.2.1, out.2.2)

/-- Source syncGuestCartToServer, with the network abstracted as the map
from request index to HTTP response.  Returns the result object, the final
storage state, and the list of issued request bodies (empty on the guard
paths, so the zero-network-call properties are expressible). -/
def syncGuestCartToServer (responses : ℕ → Resp) (w : World) :
    SyncResult × World × List CartAddRequest :=
  if !isLoggedIn w then ({ synced := 0, attempted := 0, unauthorized := false }, w, [])
  else
    let entries := listGuestItems w
    if entries.isEmpty then
      ({ synced := 0, attempted := 0, unauthorized := false }, w, [])
    else
      let out := syncLoop responses entries 0 0
      if out.2.2 then
        ({ synced := out.1, attempted := entries.length, unauthorized := true },
         w, out.2.1)
      else
        ({ synced := out.1, attempted := entries.length, unauthorized := false },
         clearGuestCart w, out.2.1)

/-! ## Specification-level derived notions -/

/-- The entries of a listing that actually get a network request: the ones
not hit by the skip condition of the sync loop. -/
def validOf (entries : List GuestItem) : List GuestItem :=
  entries.filter (fun e => !skipCond e)

/-- Number of 2xx responses among the k responses starting at index i. -/
def countOkFrom (responses : ℕ → Resp) : ℕ → ℕ → ℕ
  | _, 0 => 0
  | i, k + 1 => (if (responses i).ok then 1 else 0) + countOkFrom responses (i + 1) k

/-- The snapshot obtained by storing a snapshot under a given key and
normalizing it back on the next read: encode, stringify-parse, decode, and
patch a falsy id from the key. -/
def rereadSnapshot (k : String) (s : Snapshot) : Snapshot :=
  normProduct k (.obj (.cons "product" (jsonRound (encodeSnapshot s)) .nil))

/-- What one normalized entry becomes after a full store-and-reload cycle:
a finite quantity is floored and clamped at zero and the entry is dropped
when that is not positive (a non-finite quantity serialises as null and is
dropped as well); a surviving entry keeps its key and rereads its
snapshot. -/
def roundItem (k : String) (it : GuestItem) : Option GuestItem :=
  match it.qty with
  | .fin q =>
      if max 0 ⌊q⌋ ≤ 0 then none
      else some { qty := .fin ((max 0 ⌊q⌋ : ℤ) : ℚ), product := rereadSnapshot k it.product }
  | _ => none

/-- Entry-level version of roundItem on key-entry pairs. -/
def roundEntry (kv : String × GuestItem) : Option (String × GuestItem) :=
  (roundItem kv.1 kv.2).map (fun it => (kv.1, it))

/-- A snapshot whose string fields are fixed points of trimming (every
snapshot produced by toGuestProductSnapshot is of this shape). -/
def TrimmedSnapshot (s : Snapshot) : Prop :=
  jsTrim s.name = s.name ∧ jsTrim s.unit = s.unit ∧
  jsTrim s.photo_url = s.photo_url ∧ jsTrim s.farm_name = s.farm_name

/-- A guest cart as described by the data model: keys are distinct nonempty
trimmed product identifiers and every quantity is a positive integer.  This
is exactly the shape of the carts the module itself produces and persists. -/
def WellFormedCart (c : Cart) : Prop :=
  (c.items.map Prod.fst).Nodup ∧
  ∀ kv ∈ c.items, jsTrim kv.1 = kv.1 ∧ kv.1 ≠ "" ∧
    ∃ n : ℕ, 1 ≤ n ∧ kv.2.qty = .fin (n : ℚ)

/-! ## Concrete fixtures used by witnesses and counterexamples -/

/-- A product with id 42 and no other fields. -/
def prod42 : JsVal := .obj (.cons "id" (.num (.fin 42)) .nil)

/-- A product whose id resolves to the negative number -5. -/
def prodNeg : JsVal := .obj (.cons "id" (.num (.fin (-5))) .nil)

/-- A product with a valid id and a NaN price. -/
def prodNanPrice : JsVal :=
  .obj (.cons "id" (.num (.fin 1)) (.cons "price" (.num .nan) .nil))

/-- A stored auth record payload with a truthy access token. -/
def authData : JsVal := .obj (.cons "access" (.str "tok") .nil)

/-- A logged-in world whose guest cart lists product ids 1, 2, 3 with
quantities 1, 2, 3. -/
def syncWorld : World :=
  { sessionAuth := .val authData
    localAuth := .missing
    guestCart := .val (.obj (.cons "items"
      (.obj (.cons "1" (.obj (.cons "qty" (.num (.fin 1)) .nil))
        (.cons "2" (.obj (.cons "qty" (.num (.fin 2)) .nil))
          (.cons "3" (.obj (.cons "qty" (.num (.fin 3)) .nil)) .nil)))) .nil)) }

/-- A logged-in world whose guest cart lists a valid id 1, an entry whose
cached id resolves to the negative number -7 (so the sync loop skips it),
and a valid id 3. -/
def syncWorldInvalid : World :=
  { sessionAuth := .val authData
    localAuth := .missing
    guestCart := .val (.obj (.cons "items"
      (.obj (.cons "1" (.obj (.cons "qty" (.num (.fin 1)) .nil))
        (.cons "-7" (.obj (.cons "qty" (.num (.fin 2)) .nil))
          (.cons "3" (.obj (.cons "qty" (.num (.fin 3)) .nil)) .nil)))) .nil)) }

/-- A logged-in world with an empty guest cart. -/
def loggedInEmptyWorld : World :=
  { sessionAuth := .val authData, localAuth := .missing, guestCart := .missing }

/-- A logged-out world with a non-empty guest cart. -/
def loggedOutCartWorld : World :=
  { sessionAuth := .missing, localAuth := .missing
    guestCart := .val (.obj (.cons "items"
      (.obj (.cons "1" (.obj (.cons "qty" (.num (.fin 1)) .nil)) .nil)) .nil)) }

/-- A stored guest cart blob whose quantity field is Infinity.  This state
is reachable: the JSON literal 1e999 overflows to Infinity under JSON.parse,
so a stored string can normalize to exactly this value. -/
def advWorld : World :=
  { emptyWorld with guestCart := .val (.obj (.cons "items"
      (.obj (.cons "5" (.obj (.cons "qty" (.num .pinf) .nil)) .nil)) .nil)) }

/-- An environment answering 401 to every request. -/
def resp401 : ℕ → Resp := fun _ => ⟨401⟩

/-- An environment failing the second request with a 500 and answering 200
elsewhere. -/
def respMid : ℕ → Resp := fun i => if i = 1 then ⟨500⟩ else ⟨200⟩

/-- An environment answering 200 to every request. -/
def respOk : ℕ → Resp := fun _ => ⟨200⟩

/-- The normalized snapshot read back for a bare stored entry whose key
parses to the numeric id n: all display fields empty. -/
def bareSnapshot (n : ℚ) : Snapshot :=
  { id := .fin n, name := "", price := .fin 0, unit := "",
    photo_url := "", farm_name := "" }

/-- A well-formed two-entry cart fixture. -/
def wfCart : Cart :=
  { items :=
      [("4", { qty := .fin 2, product := bareSnapshot 4 }),
       ("9", { qty := .fin 7, product := bareSnapshot 9 })]
    updatedAt := .null }

/-! ## Helper lemmas: rational addition, trimming, decimal strings -/

theorem ratAdd_eq (a b : ℚ) : ratAdd a b = a + b := by
  unfold ratAdd
  rw [Rat.add_def, Rat.normalize_eq_mkRat]

theorem dropWhile_head_not {α : Type} (p : α → Bool) (l : List α) :
    ∀ a t, l.dropWhile p = a :: t → p a = false := by
  induction l with
  | nil => intro a t h; simp at h
  | cons b r ih =>
      intro a t h
      cases hb : p b with
      | false =>
          rw [List.dropWhile_cons, hb] at h
          simp at h
          exact h.1 ▸ hb
      | true =>
          rw [List.dropWhile_cons, hb] at h
          simp at h
          exact ih a t h

theorem dropWhile_eq_self {α : Type} (p : α → Bool) (l : List α)
    (h : ∀ a t, l = a :: t → p a = false) : l.dropWhile p = l := by
  cases l with
  | nil => rfl
  | cons a t => rw [List.dropWhile_cons, h a t rfl]; simp

theorem dropWhile_getLastEq {α : Type} (p : α → Bool) (l : List α)
    (h : l.dropWhile p ≠ []) : (l.dropWhile p).getLast? = l.getLast? := by
  induction l with
  | nil => simp at h
  | cons a t ih =>
      cases ha : p a with
      | false => rw [List.dropWhile_cons, ha]; simp
      | true =>
          simp only [List.dropWhile_cons, ha, if_true] at h ⊢
          rw [ih h]
          cases t with
          | nil => simp at h
          | cons b r => simp [List.getLast?_cons_cons]

theorem jsTrimList_head_not (l : List Char) :
    ∀ a t, jsTrimList l = a :: t → isJsWs a = false := by
  intro a t h
  unfold jsTrimList at h
  have he : ((l.dropWhile isJsWs).reverse.dropWhile isJsWs).getLast? = some a := by
    rw [← List.head?_reverse, h]; rfl
  have hene : (l.dropWhile isJsWs).reverse.dropWhile isJsWs ≠ [] := by
    intro hnil; rw [hnil] at he; simp at he
  rw [dropWhile_getLastEq _ _ hene, List.getLast?_reverse] at he
  obtain ⟨t2, ht2⟩ : ∃ t2, l.dropWhile isJsWs = a :: t2 := by
    cases hd : l.dropWhile isJsWs with
    | nil => rw [hd] at he; simp at he
    | cons x y =>
        rw [hd] at he
        simp at he
        exact ⟨y, by rw [he]⟩
  exact dropWhile_head_not _ _ a t2 ht2

theorem jsTrimList_getLast_not (l : List Char) :
    ∀ a, (jsTrimList l).getLast? = some a → isJsWs a = false := by
  intro a h
  unfold jsTrimList at h
  rw [List.getLast?_reverse] at h
  cases hd : (l.dropWhile isJsWs).reverse.dropWhile isJsWs with
  | nil => rw [hd] at h; simp at h
  | cons x y =>
      rw [hd] at h
      simp at h
      exact h ▸ dropWhile_head_not _ _ x y hd

theorem jsTrimList_idem (l : List Char) : jsTrimList (jsTrimList l) = jsTrimList l := by
  have h1 : (jsTrimList l).dropWhile isJsWs = jsTrimList l :=
    dropWhile_eq_self _ _ (jsTrimList_head_not l)
  have h2 : (jsTrimList l).reverse.dropWhile isJsWs = (jsTrimList l).reverse := by
    apply dropWhile_eq_self
    intro a t h
    apply jsTrimList_getLast_not l
    rw [← List.head?_reverse, h]
    rfl
  show ((((jsTrimList l).dropWhile isJsWs).reverse.dropWhile isJsWs)).reverse = jsTrimList l
  rw [h1, h2, List.reverse_reverse]

theorem jsTrim_idem (s : String) : jsTrim (jsTrim s) = jsTrim s := by
  show (⟨jsTrimList (jsTrimList s.data)⟩ : String) = ⟨jsTrimList s.data⟩
  rw [jsTrimList_idem]

theorem jsTrimList_of_no_ws (l : List Char) (h : ∀ c ∈ l, isJsWs c = false) :
    jsTrimList l = l := by
  have h1 : l.dropWhile isJsWs = l :=
    dropWhile_eq_self _ _ (fun a t ht => h a (by rw [ht]; simp))
  have h2 : l.reverse.dropWhile isJsWs = l.reverse :=
    dropWhile_eq_self _ _ (fun a t ht => by
      apply h a
      have : a ∈ l.reverse := by rw [ht]; simp
      simpa using this)
  show ((l.dropWhile isJsWs).reverse.dropWhile isJsWs).reverse = l
  rw [h1, h2, List.reverse_reverse]

theorem jsTrim_of_no_ws (s : String) (h : ∀ c ∈ s.data, isJsWs c = false) :
    jsTrim s = s := by
  show (⟨jsTrimList s.data⟩ : String) = s
  rw [jsTrimList_of_no_ws s.data h]

theorem natDigitsRevAux_no_ws :
    ∀ f n, ∀ c ∈ natDigitsRevAux f n, isJsWs c = false := by
  intro f
  induction f with
  | zero => intro n c hc; cases n <;> simp [natDigitsRevAux] at hc
  | succ f ih =>
      intro n c hc
      cases n with
      | zero => simp [natDigitsRevAux] at hc
      | succ m =>
          simp only [natDigitsRevAux, List.mem_cons] at hc
          rcases hc with rfl | hc
          · have h10 : (m + 1) % 10 < 10 := Nat.mod_lt _ (by omega)
            set k := (m + 1) % 10 with hk
            interval_cases k <;> decide
          · exact ih _ c hc

theorem natToDec_no_ws (n : ℕ) : ∀ c ∈ (natToDec n).data, isJsWs c = false := by
  unfold natToDec
  split
  · intro c hc; simp at hc; subst hc; decide
  · intro c hc
    simp only [List.mem_reverse] at hc
    exact natDigitsRevAux_no_ws n n c hc

theorem natToDec_data_ne_nil (n : ℕ) : (natToDec n).data ≠ [] := by
  unfold natToDec
  split
  · decide
  · rename_i h
    obtain ⟨m, rfl⟩ : ∃ m, n = m + 1 := ⟨n - 1, by omega⟩
    show (natDigitsRevAux (m + 1) (m + 1)).reverse ≠ []
    simp [natDigitsRevAux]

theorem intToDec_no_ws (i : ℤ) : ∀ c ∈ (intToDec i).data, isJsWs c = false := by
  cases i with
  | ofNat m => exact natToDec_no_ws m
  | negSucc m =>
      intro c hc
      have hc2 : c ∈ (("-" : String) ++ natToDec (m + 1)).data := hc
      rw [String.data_append] at hc2
      rcases List.mem_append.1 hc2 with h1 | h1
      · simp at h1; subst h1; decide
      · exact natToDec_no_ws _ c h1

theorem intToDec_data_ne_nil (i : ℤ) : (intToDec i).data ≠ [] := by
  cases i with
  | ofNat m => exact natToDec_data_ne_nil m
  | negSucc m =>
      show (("-" : String) ++ natToDec (m + 1)).data ≠ []
      rw [String.data_append]
      simp

theorem toJsString_fin_no_ws (q : ℚ) :
    ∀ c ∈ (JNum.toJsString (.fin q)).data, isJsWs c = false := by
  show ∀ c ∈ ((if q.den = 1 then intToDec q.num
      else intToDec q.num ++ "/" ++ natToDec q.den) : String).data, isJsWs c = false
  split
  · exact intToDec_no_ws q.num
  · intro c hc
    rw [String.data_append, String.data_append] at hc
    rcases List.mem_append.1 hc with h1 | h1
    · rcases List.mem_append.1 h1 with h2 | h2
      · exact intToDec_no_ws q.num c h2
      · simp at h2; subst h2; decide
    · exact natToDec_no_ws q.den c h1

theorem toJsString_no_ws (n : JNum) :
    ∀ c ∈ n.toJsString.data, isJsWs c = false := by
  cases n with
  | nan => decide
  | pinf => decide
  | ninf => decide
  | fin q => exact toJsString_fin_no_ws q

theorem jsTrim_toJsString (n : JNum) : jsTrim n.toJsString = n.toJsString :=
  jsTrim_of_no_ws _ (toJsString_no_ws n)

theorem data_ne_nil_iff (s : String) : s ≠ "" ↔ s.data ≠ [] := by
  constructor
  · intro h hd
    exact h (by cases s with | mk l => cases hd; rfl)
  · intro h he
    apply h
    rw [he]

theorem toJsString_ne_empty (n : JNum) : n.toJsString ≠ "" := by
  cases n with
  | nan => decide
  | pinf => decide
  | ninf => decide
  | fin q =>
      rw [data_ne_nil_iff]
      show ((if q.den = 1 then intToDec q.num
          else intToDec q.num ++ "/" ++ natToDec q.den) : String).data ≠ []
      split
      · exact intToDec_data_ne_nil q.num
      · rw [String.data_append, String.data_append]
        simp only [ne_eq, List.append_eq_nil]
        intro ⟨⟨h1, _⟩, _⟩
        exact intToDec_data_ne_nil q.num h1

/-! ## Helper lemmas: the normalized items map -/

theorem listGet_eq_none_iff (items : List (String × GuestItem)) (k : String) :
    listGet items k = none ↔ k ∉ items.map Prod.fst := by
  induction items with
  | nil => simp [listGet]
  | cons hd tl ih =>
      by_cases hh : hd.1 = k
      · simp [listGet, hh]
      · simp [listGet, hh, ih, Ne.symm hh]

theorem listGet_isSome_mem (items : List (String × GuestItem)) (k : String)
    (it : GuestItem) (h : listGet items k = some it) : k ∈ items.map Prod.fst := by
  by_contra hmem
  rw [← listGet_eq_none_iff] at hmem
  rw [hmem] at h
  exact Option.noConfusion h

theorem listSet_of_not_mem (items : List (String × GuestItem)) (k : String)
    (it : GuestItem) (h : k ∉ items.map Prod.fst) :
    listSet items k it = items ++ [(k, it)] := by
  unfold listSet
  rw [if_neg]
  intro hany
  simp only [List.any_eq_true, decide_eq_true_eq] at hany
  obtain ⟨kv, hkv, he⟩ := hany
  exact h (List.mem_map.2 ⟨kv, hkv, he⟩)

theorem listSet_forall {P : String × GuestItem → Prop}
    (items : List (String × GuestItem)) (k : String) (it : GuestItem)
    (h : ∀ kv ∈ items, P kv) (hk : P (k, it)) :
    ∀ kv ∈ listSet items k it, P kv := by
  intro kv hkv
  unfold listSet at hkv
  split at hkv
  · obtain ⟨kv0, h0, rfl⟩ := List.mem_map.1 hkv
    by_cases hkk : kv0.1 = k
    · simpa [hkk] using hk
    · simpa [hkk] using h _ h0
  · rcases List.mem_append.1 hkv with h1 | h1
    · exact h _ h1
    · simp only [List.mem_singleton] at h1
      exact h1 ▸ hk

theorem map_fst_listSet (items : List (String × GuestItem)) (k : String)
    (it : GuestItem) (hmem : k ∈ items.map Prod.fst) :
    (listSet items k it).map Prod.fst = items.map Prod.fst := by
  unfold listSet
  rw [if_pos]
  · rw [List.map_map]
    apply List.map_congr_left
    intro kv _
    by_cases hkk : kv.1 = k
    · simp [hkk]
    · simp [hkk]
  · simp only [List.any_eq_true, decide_eq_true_eq]
    obtain ⟨kv, hkv, he⟩ := List.mem_map.1 hmem
    exact ⟨kv, hkv, he⟩

theorem listSet_nodup (items : List (String × GuestItem)) (k : String)
    (it : GuestItem) (h : (items.map Prod.fst).Nodup) :
    ((listSet items k it).map Prod.fst).Nodup := by
  by_cases hmem : k ∈ items.map Prod.fst
  · rw [map_fst_listSet items k it hmem]
    exact h
  · rw [listSet_of_not_mem items k it hmem, List.map_append]
    simp [List.Nodup.append, h, hmem, List.disjoint_singleton]

theorem listGet_append_right (items : List (String × GuestItem)) (k : String)
    (it : GuestItem) (h : listGet items k = none) :
    listGet (items ++ [(k, it)]) k = some it := by
  induction items with
  | nil => simp [listGet]
  | cons hd tl ih =>
      by_cases hh : hd.1 = k
      · simp [listGet, hh] at h
      · simp only [listGet, hh, if_neg, List.cons_append, if_false] at h ⊢
        exact ih h

theorem listGet_listSet_self (items : List (String × GuestItem)) (k : String)
    (it : GuestItem) : listGet (listSet items k it) k = some it := by
  unfold listSet
  split
  · rename_i hany
    simp only [List.any_eq_true, decide_eq_true_eq] at hany
    obtain ⟨kv0, h0, he0⟩ := hany
    induction items with
    | nil => simp at h0
    | cons hd tl ih =>
        rcases List.mem_cons.1 h0 with rfl | hmem
        · simp [listGet, he0]
        · by_cases hh : hd.1 = k
          · simp [listGet, hh]
          · simp only [List.map_cons, listGet, if_neg hh] at ih ⊢
            exact ih hmem
  · rename_i hany
    apply listGet_append_right
    rw [listGet_eq_none_iff]
    simp only [List.any_eq_true, decide_eq_true_eq, not_exists, not_and] at hany
    intro hmem
    obtain ⟨kv, hkv, he⟩ := List.mem_map.1 hmem
    exact hany kv hkv he

theorem listGet_listDel_self (items : List (String × GuestItem)) (k : String) :
    listGet (listDel items k) k = none := by
  rw [listGet_eq_none_iff]
  intro hmem
  obtain ⟨kv, hkv, he⟩ := List.mem_map.1 hmem
  have := List.of_mem_filter hkv
  simp [he] at this

theorem listGet_mapSetQty (items : List (String × GuestItem)) (k : String) (q : JNum) :
    listGet (items.map (fun kv => if kv.1 = k then (kv.1, { kv.2 with qty := q }) else kv)) k
      = (listGet items k).map (fun it => { it with qty := q }) := by
  induction items with
  | nil => rfl
  | cons hd tl ih =>
      by_cases hh : hd.1 = k
      · simp [listGet, hh]
      · simp only [List.map_cons, if_neg hh, listGet]
        exact ih

theorem map_fst_mapSetQty (items : List (String × GuestItem)) (k : String) (q : JNum) :
    (items.map (fun kv => if kv.1 = k then (kv.1, { kv.2 with qty := q }) else kv)).map
      Prod.fst = items.map Prod.fst := by
  rw [List.map_map]
  apply List.map_congr_left
  intro kv _
  by_cases hkk : kv.1 = k
  · simp [hkk]
  · simp [hkk]

/-- The shape of every quantity produced by the per-entry normalization:
either Infinity or a finite non-negative integer. -/
theorem normQty_shape (v : JsVal) :
    normQty v = .pinf ∨ ∃ m : ℤ, 0 ≤ m ∧ normQty v = .fin (m : ℚ) := by
  unfold normQty
  cases hx : (v.optChain "qty").toNum with
  | nan => right; exact ⟨0, le_refl 0, by simp [JNum.numOr, JNum.truthy, JNum.jfloor, JNum.jmax]⟩
  | pinf => left; simp [JNum.numOr, JNum.truthy, JNum.jfloor, JNum.jmax]
  | ninf => right; exact ⟨0, le_refl 0, by simp [JNum.numOr, JNum.truthy, JNum.jfloor, JNum.jmax]⟩
  | fin q =>
      right
      by_cases hq : q = 0
      · exact ⟨0, le_refl 0, by simp [hq, JNum.numOr, JNum.truthy, JNum.jfloor, JNum.jmax]⟩
      · refine ⟨max 0 ⌊q⌋, le_max_left 0 ⌊q⌋, ?_⟩
        have ht : (JNum.fin q).truthy = true := by simp [JNum.truthy, hq]
        simp only [JNum.numOr, ht, if_true, JNum.jfloor, JNum.jmax]
        rw [Int.cast_max]
        simp

/-- Positivity test used by the normalization loop, on the shapes above. -/
theorem jle_zero_fin (m : ℤ) :
    (JNum.fin (m : ℚ)).jle (.fin 0) = decide (m ≤ 0) := by
  simp [JNum.jle]

/-- Every entry surviving the normalization loop has a trimmed nonempty key
and a quantity that is Infinity or a positive integer. -/
theorem normalizeItems_facts (fields : List (String × JsVal)) :
    ∀ acc : List (String × GuestItem),
      (∀ kv ∈ acc, (jsTrim kv.1 = kv.1 ∧ kv.1 ≠ "") ∧
        (kv.2.qty = .pinf ∨ ∃ n : ℕ, 1 ≤ n ∧ kv.2.qty = .fin (n : ℚ))) →
      ∀ kv ∈ normalizeItems fields acc,
        (jsTrim kv.1 = kv.1 ∧ kv.1 ≠ "") ∧
        (kv.2.qty = .pinf ∨ ∃ n : ℕ, 1 ≤ n ∧ kv.2.qty = .fin (n : ℚ)) := by
  induction fields with
  | nil => intro acc hacc; exact hacc
  | cons kv rest ih =>
      intro acc hacc
      simp only [normalizeItems]
      split
      · exact ih acc hacc
      · split
        · exact ih acc hacc
        · rename_i hne hle
          apply ih
          apply listSet_forall _ _ _ hacc
          refine ⟨⟨jsTrim_idem kv.1, hne⟩, ?_⟩
          rcases normQty_shape kv.2 with hp | ⟨m, hm, he⟩
          · left; exact hp
          · right
            rw [he] at hle ⊢
            rw [jle_zero_fin] at hle
            simp only [decide_eq_true_eq] at hle
            refine ⟨m.toNat, by omega, ?_⟩
            rw [← Int.cast_natCast (R := ℚ), Int.toNat_of_nonneg hm]

/-- The normalization loop keeps the keys of the accumulator distinct. -/
theorem normalizeItems_nodup (fields : List (String × JsVal)) :
    ∀ acc, ((acc.map Prod.fst).Nodup) →
      ((normalizeItems fields acc).map Prod.fst).Nodup := by
  induction fields with
  | nil => intro acc h; exact h
  | cons kv rest ih =>
      intro acc h
      simp only [normalizeItems]
      split
      · exact ih acc h
      · split
        · exact ih acc h
        · exact ih _ (listSet_nodup _ _ _ h)

/-- Entry facts for every cart read back from any storage state. -/
theorem getGuestCart_facts (w : World) :
    ∀ kv ∈ (getGuestCart w).items,
      (jsTrim kv.1 = kv.1 ∧ kv.1 ≠ "") ∧
      (kv.2.qty = .pinf ∨ ∃ n : ℕ, 1 ≤ n ∧ kv.2.qty = .fin (n : ℚ)) := by
  intro kv hkv
  exact normalizeItems_facts _ [] (by intro kv2 hkv2; simp at hkv2) kv hkv

/-- Keys of every cart read back from storage are distinct. -/
theorem getGuestCart_nodup (w : World) :
    ((getGuestCart w).items.map Prod.fst).Nodup := by
  exact normalizeItems_nodup _ [] (by simp)

/-! ## Helper lemmas: the store-and-reload round trip -/

theorem jsonRoundFields_encodeItems (items : List (String × GuestItem)) :
    (jsonRoundFields (encodeItems items)).toList
      = items.map (fun kv => (kv.1, jsonRound (encodeItem kv.2))) := by
  induction items with
  | nil => rfl
  | cons kv rest ih =>
      show (kv.1, jsonRound (encodeItem kv.2)) ::
          (jsonRoundFields (encodeItems rest)).toList = _
      rw [ih, List.map_cons]

theorem normQty_encodeItem (it : GuestItem) :
    normQty (jsonRound (encodeItem it)) =
      (match it.qty with
       | .fin q => .fin ((max 0 ⌊q⌋ : ℤ) : ℚ)
       | _ => .fin 0) := by
  obtain ⟨qv, prod⟩ := it
  cases qv with
  | fin q =>
      show JNum.jmax (.fin 0) ((JNum.numOr (.fin q) (.fin 0)).jfloor) = _
      by_cases h0 : q = 0
      · simp [h0, JNum.numOr, JNum.truthy, JNum.jfloor, JNum.jmax]
      · have ht : (JNum.fin q).truthy = true := by simp [JNum.truthy, h0]
        simp only [JNum.numOr, ht, if_true, JNum.jfloor, JNum.jmax]
        rw [Int.cast_max]
        simp
  | nan =>
      show JNum.jmax (.fin 0) ((JNum.numOr (.fin 0) (.fin 0)).jfloor) = _
      simp [JNum.numOr, JNum.truthy, JNum.jfloor, JNum.jmax]
  | pinf =>
      show JNum.jmax (.fin 0) ((JNum.numOr (.fin 0) (.fin 0)).jfloor) = _
      simp [JNum.numOr, JNum.truthy, JNum.jfloor, JNum.jmax]
  | ninf =>
      show JNum.jmax (.fin 0) ((JNum.numOr (.fin 0) (.fin 0)).jfloor) = _
      simp [JNum.numOr, JNum.truthy, JNum.jfloor, JNum.jmax]

theorem normProduct_encodeItem (k : String) (it : GuestItem) :
    normProduct k (jsonRound (encodeItem it)) = rereadSnapshot k it.product := rfl

theorem roundEntry_fin (kv : String × GuestItem) (q : ℚ) (hq : kv.2.qty = .fin q) :
    roundEntry kv =
      (if max 0 ⌊q⌋ ≤ 0 then none
       else some (kv.1, { qty := .fin ((max 0 ⌊q⌋ : ℤ) : ℚ),
                          product := rereadSnapshot kv.1 kv.2.product })) := by
  unfold roundEntry roundItem
  rw [hq]
  by_cases h : max 0 ⌊q⌋ ≤ 0
  · simp [h]
  · simp [h]

theorem roundEntry_not_fin (kv : String × GuestItem)
    (hq : ∀ q : ℚ, kv.2.qty ≠ .fin q) : roundEntry kv = none := by
  unfold roundEntry roundItem
  cases h : kv.2.qty with
  | fin q => exact absurd h (hq q)
  | nan => rfl
  | pinf => rfl
  | ninf => rfl

/-- The normalization loop applied to a stored well-keyed cart gives exactly
the entry-wise round trip. -/
theorem normalizeItems_encoded (items : List (String × GuestItem)) :
    ∀ acc : List (String × GuestItem),
      (∀ kv ∈ items, jsTrim kv.1 = kv.1 ∧ kv.1 ≠ "") →
      ((items.map Prod.fst).Nodup) →
      (∀ kv ∈ items, kv.1 ∉ acc.map Prod.fst) →
      normalizeItems (items.map (fun kv => (kv.1, jsonRound (encodeItem kv.2)))) acc
        = acc ++ items.filterMap roundEntry := by
  induction items with
  | nil => intro acc _ _ _; simp [normalizeItems]
  | cons kv rest ih =>
      intro acc htr hnd hfresh
      obtain ⟨htrk, hnek⟩ := htr kv (List.mem_cons_self kv rest)
      simp only [List.map_cons, normalizeItems]
      rw [htrk, if_neg hnek, normQty_encodeItem]
      have hndr : ((rest.map Prod.fst).Nodup) := (List.nodup_cons.1 hnd).2
      have hhk : kv.1 ∉ rest.map Prod.fst := (List.nodup_cons.1 hnd).1
      cases hq : kv.2.qty with
      | fin q =>
          simp only []
          by_cases hle : max 0 ⌊q⌋ ≤ 0
          · rw [jle_zero_fin]
            simp only [decide_eq_true_eq]
            rw [if_pos hle]
            rw [ih acc (fun kv2 h2 => htr kv2 (List.mem_cons_of_mem kv h2)) hndr
              (fun kv2 h2 => hfresh kv2 (List.mem_cons_of_mem kv h2))]
            rw [List.filterMap_cons, roundEntry_fin kv q hq, if_pos hle]
          · rw [jle_zero_fin]
            simp only [decide_eq_true_eq]
            rw [if_neg hle, normProduct_encodeItem,
              listSet_of_not_mem acc kv.1 _ (hfresh kv (List.mem_cons_self kv rest))]
            have hfr2 : ∀ kv2 ∈ rest, kv2.1 ∉
                (acc ++ [(kv.1, ({ qty := JNum.fin ((max 0 ⌊q⌋ : ℤ) : ℚ),
                                   product := rereadSnapshot kv.1 kv.2.product } :
                  GuestItem))]).map Prod.fst := by
              intro kv2 h2
              rw [List.map_append, List.mem_append]
              rintro (hmem | hmem)
              · exact hfresh kv2 (List.mem_cons_of_mem kv h2) hmem
              · simp only [List.map_cons, List.map_nil, List.mem_singleton] at hmem
                exact hhk (hmem ▸ List.mem_map.2 ⟨kv2, h2, rfl⟩)
            rw [ih _ (fun kv2 h2 => htr kv2 (List.mem_cons_of_mem kv h2)) hndr hfr2]
            rw [List.filterMap_cons, roundEntry_fin kv q hq, if_neg hle]
            simp [List.append_assoc]
      | nan =>
          simp only []
          rw [show (JNum.fin 0).jle (.fin 0) = true by rfl]
          rw [if_pos rfl]
          rw [ih acc (fun kv2 h2 => htr kv2 (List.mem_cons_of_mem kv h2)) hndr
            (fun kv2 h2 => hfresh kv2 (List.mem_cons_of_mem kv h2))]
          rw [List.filterMap_cons, roundEntry_not_fin kv (by rw [hq]; intro q h; exact JNum.noConfusion h)]
      | pinf =>
          simp only []
          rw [show (JNum.fin 0).jle (.fin 0) = true by rfl]
          rw [if_pos rfl]
          rw [ih acc (fun kv2 h2 => htr kv2 (List.mem_cons_of_mem kv h2)) hndr
            (fun kv2 h2 => hfresh kv2 (List.mem_cons_of_mem kv h2))]
          rw [List.filterMap_cons, roundEntry_not_fin kv (by rw [hq]; intro q h; exact JNum.noConfusion h)]
      | ninf =>
          simp only []
          rw [show (JNum.fin 0).jle (.fin 0) = true by rfl]
          rw [if_pos rfl]
          rw [ih acc (fun kv2 h2 => htr kv2 (List.mem_cons_of_mem kv h2)) hndr
            (fun kv2 h2 => hfresh kv2 (List.mem_cons_of_mem kv h2))]
          rw [List.filterMap_cons, roundEntry_not_fin kv (by rw [hq]; intro q h; exact JNum.noConfusion h)]

/-- What getGuestCart reads back right after setGuestCart stored a cart with
distinct trimmed nonempty keys. -/
theorem getGuestCart_setGuestCart (c : Cart) (now : String) (w : World)
    (htr : ∀ kv ∈ c.items, jsTrim kv.1 = kv.1 ∧ kv.1 ≠ "")
    (hnd : (c.items.map Prod.fst).Nodup) :
    (getGuestCart (setGuestCart c now w)).items = c.items.filterMap roundEntry := by
  show normalizeItems (jsonRoundFields (encodeItems c.items)).toList [] = _
  rw [jsonRoundFields_encodeItems]
  rw [normalizeItems_encoded c.items [] htr hnd (by intro kv _; simp)]
  rfl

theorem toGuestProductSnapshot_trimmed (v : JsVal) :
    TrimmedSnapshot (toGuestProductSnapshot v) :=
  ⟨jsTrim_idem _, jsTrim_idem _, jsTrim_idem _, jsTrim_idem _⟩

/-- A snapshot with a truthy finite id and a finite price survives the
store-and-reload cycle unchanged (its string fields being trimmed). -/
theorem rereadSnapshot_eq (k : String) (s : Snapshot)
    (hidf : s.id.isFiniteJ = true) (hidt : s.id.truthy = true)
    (hpr : s.price.isFiniteJ = true) (hs : TrimmedSnapshot s) :
    rereadSnapshot k s = s := by
  obtain ⟨idv, namev, pricev, unitv, purl, fname⟩ := s
  obtain ⟨hn, hu, hp, hf⟩ := hs
  cases idv with
  | nan => simp [JNum.isFiniteJ] at hidf
  | pinf => simp [JNum.isFiniteJ] at hidf
  | ninf => simp [JNum.isFiniteJ] at hidf
  | fin qi =>
      cases pricev with
      | nan => simp [JNum.isFiniteJ] at hpr
      | pinf => simp [JNum.isFiniteJ] at hpr
      | ninf => simp [JNum.isFiniteJ] at hpr
      | fin qp =>
          have hstep : rereadSnapshot k
              ({ id := .fin qi, name := namev, price := .fin qp, unit := unitv,
                 photo_url := purl, farm_name := fname } : Snapshot)
              = (if !(JNum.fin qi).truthy then
                  ({ id := strToNum k, name := jsTrim namev, price := .fin qp,
                     unit := jsTrim unitv, photo_url := jsTrim purl,
                     farm_name := jsTrim fname } : Snapshot)
                 else
                  ({ id := .fin qi, name := jsTrim namev, price := .fin qp,
                     unit := jsTrim unitv, photo_url := jsTrim purl,
                     farm_name := jsTrim fname } : Snapshot)) := rfl
          rw [hstep, hidt]
          simp only [Bool.not_true, if_false, Bool.false_eq_true]
          rw [hn, hu, hp, hf]

theorem roundEntry_none_iff (kv : String × GuestItem) :
    roundEntry kv = none ↔ roundItem kv.1 kv.2 = none := by
  unfold roundEntry
  cases roundItem kv.1 kv.2 <;> simp

theorem roundEntry_some_of (kv : String × GuestItem) (it : GuestItem)
    (h : roundItem kv.1 kv.2 = some it) : roundEntry kv = some (kv.1, it) := by
  unfold roundEntry
  rw [h]
  rfl

theorem filterMap_roundEntry_keys (items : List (String × GuestItem)) (k : String)
    (h : k ∈ (items.filterMap roundEntry).map Prod.fst) : k ∈ items.map Prod.fst := by
  obtain ⟨kv2, h2, he⟩ := List.mem_map.1 h
  obtain ⟨kv3, h3, he3⟩ := List.mem_filterMap.1 h2
  unfold roundEntry at he3
  cases h4 : roundItem kv3.1 kv3.2 with
  | none => rw [h4] at he3; exact Option.noConfusion he3
  | some it =>
      rw [h4] at he3
      have he3' : (kv3.1, it) = kv2 := by simpa using he3
      apply List.mem_map.2
      refine ⟨kv3, h3, ?_⟩
      rw [← he, ← he3']

theorem listGet_filterMap_roundEntry (items : List (String × GuestItem)) (k : String)
    (hnd : (items.map Prod.fst).Nodup) :
    listGet (items.filterMap roundEntry) k = (listGet items k).bind (roundItem k) := by
  induction items with
  | nil => rfl
  | cons kv rest ih =>
      rw [List.map_cons, List.nodup_cons] at hnd
      by_cases hk : kv.1 = k
      · subst hk
        rw [List.filterMap_cons]
        cases h4 : roundItem kv.1 kv.2 with
        | none =>
            rw [(roundEntry_none_iff kv).2 h4]
            have hnone : listGet (rest.filterMap roundEntry) kv.1 = none := by
              rw [listGet_eq_none_iff]
              intro hmem
              exact hnd.1 (filterMap_roundEntry_keys rest kv.1 hmem)
            rw [hnone]
            simp [listGet, h4]
        | some it =>
            rw [roundEntry_some_of kv it h4]
            simp [listGet, h4]
      · rw [List.filterMap_cons]
        cases h4 : roundItem kv.1 kv.2 with
        | none =>
            rw [(roundEntry_none_iff kv).2 h4]
            rw [ih hnd.2]
            simp [listGet, hk]
        | some it =>
            rw [roundEntry_some_of kv it h4]
            simp only [listGet, if_neg hk]
            exact ih hnd.2

/-- Effective quantity added by addGuestItem for a finite numeric argument:
floored and clamped at one. -/
theorem effAddQty (qv : ℚ) :
    JNum.jmax (.fin 1) ((JNum.numOr ((JsVal.num (.fin qv)).toNum) (.fin 1)).jfloor)
      = .fin ((max 1 ⌊qv⌋ : ℤ) : ℚ) := by
  show JNum.jmax (.fin 1) ((JNum.numOr (.fin qv) (.fin 1)).jfloor) = _
  by_cases h0 : qv = 0
  · simp [h0, JNum.numOr, JNum.truthy, JNum.jfloor, JNum.jmax]
  · have ht : (JNum.fin qv).truthy = true := by simp [JNum.truthy, h0]
    simp only [JNum.numOr, ht, if_true, JNum.jfloor, JNum.jmax]
    rw [Int.cast_max]
    simp

/-- Effective quantity set by setGuestItemQty for a finite numeric argument:
floored and clamped at zero. -/
theorem effSetQty (qv : ℚ) :
    JNum.jmax (.fin 0) ((JNum.numOr ((JsVal.num (.fin qv)).toNum) (.fin 0)).jfloor)
      = .fin ((max 0 ⌊qv⌋ : ℤ) : ℚ) := by
  show JNum.jmax (.fin 0) ((JNum.numOr (.fin qv) (.fin 0)).jfloor) = _
  by_cases h0 : qv = 0
  · simp [h0, JNum.numOr, JNum.truthy, JNum.jfloor, JNum.jmax]
  · have ht : (JNum.fin qv).truthy = true := by simp [JNum.truthy, h0]
    simp only [JNum.numOr, ht, if_true, JNum.jfloor, JNum.jmax]
    rw [Int.cast_max]
    simp

/-- The key string used by addGuestItem for a truthy snapshot id. -/
theorem addGuestItem_key (p : JsVal) (ht : (toGuestProductSnapshot p).id.truthy = true) :
    jsTrim ((JsVal.num (toGuestProductSnapshot p).id).jsOr (.str "")).toStr
      = (toGuestProductSnapshot p).id.toJsString := by
  have htv : (JsVal.num (toGuestProductSnapshot p).id).truthy = true := ht
  rw [JsVal.jsOr, htv]
  simp only [if_true]
  exact jsTrim_toJsString _

/-- What addGuestItem with a truthy snapshot id and a finite numeric
quantity does to the observable cart. -/
theorem getGuestCart_addGuestItem (p : JsVal) (qv : ℚ) (now : String) (w : World)
    (ht : (toGuestProductSnapshot p).id.truthy = true) :
    (getGuestCart (addGuestItem p (.num (.fin qv)) now w)).items
      = (listSet (getGuestCart w).items (toGuestProductSnapshot p).id.toJsString
          { qty := (match listGet (getGuestCart w).items
                      (toGuestProductSnapshot p).id.toJsString with
                    | some it => if it.qty.truthy then it.qty else .fin 0
                    | none => .fin 0).addJ (.fin ((max 1 ⌊qv⌋ : ℤ) : ℚ)),
            product := toGuestProductSnapshot p }).filterMap roundEntry := by
  simp only [addGuestItem]
  rw [addGuestItem_key p ht, if_neg (toJsString_ne_empty _), effAddQty]
  apply getGuestCart_setGuestCart
  · apply listSet_forall
    · intro kv hkv
      exact (getGuestCart_facts w kv hkv).1
    · exact ⟨jsTrim_toJsString _, toJsString_ne_empty _⟩
  · exact listSet_nodup _ _ _ (getGuestCart_nodup w)

/-- What setGuestItemQty with a resolvable id and a finite numeric quantity
does to the observable cart. -/
theorem getGuestCart_setGuestItemQty (pid : JsVal) (qv : ℚ) (now : String) (w : World)
    (hid : jsTrim (pid.jsOr (.str "")).toStr ≠ "") :
    (getGuestCart (setGuestItemQty pid (.num (.fin qv)) now w)).items
      = (if max 0 ⌊qv⌋ ≤ 0 then
           listDel (getGuestCart w).items (jsTrim (pid.jsOr (.str "")).toStr)
         else if (listGet (getGuestCart w).items (jsTrim (pid.jsOr (.str "")).toStr)).isSome then
           (getGuestCart w).items.map (fun kv =>
             if kv.1 = jsTrim (pid.jsOr (.str "")).toStr then
               (kv.1, { kv.2 with qty := .fin ((max 0 ⌊qv⌋ : ℤ) : ℚ) })
             else kv)
         else (getGuestCart w).items).filterMap roundEntry := by
  simp only [setGuestItemQty]
  rw [if_neg hid, effSetQty, jle_zero_fin]
  simp only [decide_eq_true_eq]
  split
  · apply getGuestCart_setGuestCart
    · intro kv hkv
      exact (getGuestCart_facts w kv (List.mem_filter.1 hkv).1).1
    · apply List.Nodup.sublist _ (getGuestCart_nodup w)
      exact List.Sublist.map Prod.fst (List.filter_sublist _)
  · split
    · apply getGuestCart_setGuestCart
      · intro kv hkv
        obtain ⟨kv0, h0, rfl⟩ := List.mem_map.1 hkv
        by_cases hkk : kv0.1 = jsTrim (pid.jsOr (.str "")).toStr
        · simp only [hkk, if_true]
          exact ⟨jsTrim_idem _, hid⟩
        · simp only [hkk, if_false]
          exact (getGuestCart_facts w kv0 h0).1
      · rw [map_fst_mapSetQty]
        exact getGuestCart_nodup w
    · apply getGuestCart_setGuestCart
      · intro kv hkv
        exact (getGuestCart_facts w kv hkv).1
      · exact getGuestCart_nodup w

/-! ## Helper lemmas: the synchronization loop -/

theorem countOkFrom_succ (responses : ℕ → Resp) (i k : ℕ) :
    countOkFrom responses i (k + 1)
      = (if (responses i).ok then 1 else 0) + countOkFrom responses (i + 1) k := rfl

theorem countOkFrom_all_ok (responses : ℕ → Resp) :
    ∀ k i, (∀ j, j < k → (responses (i + j)).ok = true) →
      countOkFrom responses i k = k := by
  intro k
  induction k with
  | zero => intro i _; rfl
  | succ k ih =>
      intro i h
      have h0 : (responses i).ok = true := by simpa using h 0 (by omega)
      rw [countOkFrom_succ, if_pos h0]
      rw [ih (i + 1) (fun j hj => by
        have := h (j + 1) (by omega)
        rwa [show i + (j + 1) = i + 1 + j by omega] at this)]
      omega

theorem ok_status_ne_401 (r : Resp) (h : r.ok = true) : r.status ≠ 401 := by
  simp only [Resp.ok, decide_eq_true_eq] at h
  omega

theorem syncLoop_no401 (responses : ℕ → Resp) :
    ∀ (entries : List GuestItem) (i synced : ℕ),
      (∀ j, j < (validOf entries).length → (responses (i + j)).status ≠ 401) →
      syncLoop responses entries i synced
        = (synced + countOkFrom responses i (validOf entries).length,
           (validOf entries).map reqOf, false) := by
  intro entries
  induction entries with
  | nil => intro i synced _; simp [syncLoop, validOf, countOkFrom]
  | cons row rest ih =>
      intro i synced h
      by_cases hs : skipCond row = true
      · have hv : validOf (row :: rest) = validOf rest := by
          simp [validOf, List.filter_cons, hs]
        rw [hv] at h ⊢
        simp only [syncLoop, if_pos hs]
        exact ih i synced h
      · have hv : validOf (row :: rest) = row :: validOf rest := by
          simp [validOf, List.filter_cons, hs]
        rw [hv] at h ⊢
        have h401 : (responses i).status ≠ 401 := by
          simpa using h 0 (by simp)
        have hshift : ∀ j, j < (validOf rest).length →
            (responses (i + 1 + j)).status ≠ 401 := fun j hj => by
          have := h (j + 1) (by simp; omega)
          rwa [show i + (j + 1) = i + 1 + j by omega] at this
        simp only [syncLoop, if_neg hs, if_neg h401]
        rw [ih (i + 1) (synced + if (responses i).ok then 1 else 0) hshift]
        simp [countOkFrom_succ, Nat.add_assoc]

theorem syncLoop_401 (responses : ℕ → Resp) :
    ∀ (entries : List GuestItem) (i synced k : ℕ),
      k < (validOf entries).length →
      (responses (i + k)).status = 401 →
      (∀ j, j < k → (responses (i + j)).status ≠ 401) →
      syncLoop responses entries i synced
        = (synced + countOkFrom responses i k,
           ((validOf entries).take (k + 1)).map reqOf, true) := by
  intro entries
  induction entries with
  | nil => intro i synced k hk _ _; simp [validOf] at hk
  | cons row rest ih =>
      intro i synced k hk h401 hprev
      by_cases hs : skipCond row = true
      · have hv : validOf (row :: rest) = validOf rest := by
          simp [validOf, List.filter_cons, hs]
        rw [hv] at hk ⊢
        simp only [syncLoop, if_pos hs]
        exact ih i synced k hk h401 hprev
      · have hv : validOf (row :: rest) = row :: validOf rest := by
          simp [validOf, List.filter_cons, hs]
        rw [hv] at hk ⊢
        simp only [syncLoop, if_neg hs]
        cases k with
        | zero =>
            have h401z : (responses i).status = 401 := by simpa using h401
            rw [if_pos h401z]
            simp [countOkFrom]
        | succ k =>
            have hne : (responses i).status ≠ 401 := by
              simpa using hprev 0 (by omega)
            rw [if_neg hne]
            have hshift : ∀ j, j < k → (responses (i + 1 + j)).status ≠ 401 :=
              fun j hj => by
                have := hprev (j + 1) (by omega)
                rwa [show i + (j + 1) = i + 1 + j by omega] at this
            have h401s : (responses (i + 1 + k)).status = 401 := by
              rwa [show i + (k + 1) = i + 1 + k by omega] at h401
            have hks : k < (validOf rest).length := by
              simp at hk
              omega
            rw [ih (i + 1) (synced + if (responses i).ok then 1 else 0) k hks h401s hshift]
            simp [countOkFrom_succ, Nat.add_assoc]

theorem listGuestItems_ne_nil_of_valid (w : World)
    (h : 0 < (validOf (listGuestItems w)).length) : (listGuestItems w).isEmpty = false := by
  cases he : listGuestItems w with
  | nil => rw [he] at h; simp [validOf] at h
  | cons a t => rfl

theorem length_filter_split {α : Type} (p : α → Bool) (l : List α) :
    (l.filter (fun x => !p x)).length + (l.filter p).length = l.length := by
  induction l with
  | nil => rfl
  | cons a t ih => by_cases h : p a <;> simp [List.filter_cons, h, ← ih] <;> omega

theorem sync_unfold_main (w : World) (responses : ℕ → Resp)
    (hauth : isLoggedIn w = true) (hne : (listGuestItems w).isEmpty = false) :
    syncGuestCartToServer responses w
      = (if (syncLoop responses (listGuestItems w) 0 0).2.2 then
           ({ synced := (syncLoop responses (listGuestItems w) 0 0).1,
              attempted := (listGuestItems w).length, unauthorized := true },
            w, (syncLoop responses (listGuestItems w) 0 0).2.1)
         else
           ({ synced := (syncLoop responses (listGuestItems w) 0 0).1,
              attempted := (listGuestItems w).length, unauthorized := false },
            clearGuestCart w, (syncLoop responses (listGuestItems w) 0 0).2.1)) := by
  simp only [syncGuestCartToServer, hauth, hne, Bool.not_true, Bool.false_eq_true,
    if_false]

theorem roundItem_posInt (k : String) (m : ℤ) (s : Snapshot) (hm : 1 ≤ m) :
    roundItem k { qty := .fin ((m : ℤ) : ℚ), product := s }
      = some { qty := .fin ((m : ℤ) : ℚ), product := rereadSnapshot k s } := by
  unfold roundItem
  simp only [Int.floor_intCast]
  rw [if_neg (by omega : ¬ max 0 m ≤ 0)]
  rw [max_eq_right (by omega : (0 : ℤ) ≤ m)]

theorem roundItem_of_qty_posNat (k : String) (it : GuestItem) (n : ℕ) (h1 : 1 ≤ n)
    (hq : it.qty = .fin (n : ℚ)) :
    roundItem k it = some { qty := .fin ((n : ℕ) : ℚ),
                            product := rereadSnapshot k it.product } := by
  obtain ⟨q0, p0⟩ := it
  dsimp only at hq ⊢
  subst hq
  have h1z : (1 : ℤ) ≤ (n : ℤ) := by exact_mod_cast h1
  have hc : ((n : ℕ) : ℚ) = ((n : ℤ) : ℚ) := (Int.cast_natCast n).symm
  rw [hc]
  exact roundItem_posInt k (n : ℤ) p0 h1z

/-! ## Claim theorems -/

/-- C1: with a logged-in session and a non-empty guest cart, a 401 response
to the request at position k of the sequential loop (no earlier request
having got a 401) makes syncGuestCartToServer stop immediately: exactly k+1
requests are issued, the result is synced = number of 2xx responses so far,
attempted = total number of listed entries, unauthorized = true, and the
storage state (in particular the guest cart blob) is completely unchanged. -/
theorem C1_sync_halts_on_401 (w : World) (responses : ℕ → Resp) (k : ℕ)
    (hauth : isLoggedIn w = true)
    (hk : k < (validOf (listGuestItems w)).length)
    (h401 : (responses k).status = 401)
    (hprev : ∀ j, j < k → (responses j).status ≠ 401) :
    syncGuestCartToServer responses w
      = ({ synced := countOkFrom responses 0 k,
           attempted := (listGuestItems w).length, unauthorized := true },
         w, ((validOf (listGuestItems w)).take (k + 1)).map reqOf) := by
  rw [sync_unfold_main w responses hauth (listGuestItems_ne_nil_of_valid w (by omega))]
  rw [syncLoop_401 responses (listGuestItems w) 0 0 k hk
    (by rw [Nat.zero_add]; exact h401)
    (fun j hj => by rw [Nat.zero_add]; exact hprev j hj)]
  simp

/-- C1 witness: on a logged-in world with three valid guest entries, a 401
on the very first request yields synced 0, attempted 3, unauthorized true,
one single issued request, and unchanged storage. -/
theorem C1_witness :
    isLoggedIn syncWorld = true
    ∧ (listGuestItems syncWorld).length = 3
    ∧ 0 < (validOf (listGuestItems syncWorld)).length
    ∧ (resp401 0).status = 401
    ∧ (syncGuestCartToServer resp401 syncWorld).1
        = { synced := 0, attempted := 3, unauthorized := true }
    ∧ (syncGuestCartToServer resp401 syncWorld).2.1 = syncWorld
    ∧ ((syncGuestCartToServer resp401 syncWorld).2.2).length = 1 := by
  have h := C1_sync_halts_on_401 syncWorld resp401 0 (by decide) (by decide) rfl
    (fun j hj => absurd hj (Nat.not_lt_zero j))
  refine ⟨by decide, by decide, by decide, rfl, ?_, ?_, ?_⟩
  · rw [h]; decide
  · rw [h]
  · rw [h]; decide

/-- C2: with a logged-in session and a non-empty guest cart, when no issued
request gets a 401, the loop runs to the end: every entry with a valid
cached id gets a request (failures included), the result is synced = number
of 2xx responses, attempted = total number of listed entries, no
unauthorized flag, and the guest cache is cleared unconditionally. -/
theorem C2_sync_continues_past_failures (w : World) (responses : ℕ → Resp)
    (hauth : isLoggedIn w = true)
    (hne : (listGuestItems w).isEmpty = false)
    (hno : ∀ j, j < (validOf (listGuestItems w)).length → (responses j).status ≠ 401) :
    syncGuestCartToServer responses w
      = ({ synced := countOkFrom responses 0 (validOf (listGuestItems w)).length,
           attempted := (listGuestItems w).length, unauthorized := false },
         clearGuestCart w, (validOf (listGuestItems w)).map reqOf) := by
  rw [sync_unfold_main w responses hauth hne]
  rw [syncLoop_no401 responses (listGuestItems w) 0 0
    (fun j hj => by rw [Nat.zero_add]; exact hno j hj)]
  simp

/-- C2 witness: on a logged-in world with three valid guest entries, a 500
on the second request and 200 on the others still issues all three requests
and yields synced 2, attempted 3, with the cache cleared. -/
theorem C2_witness :
    isLoggedIn syncWorld = true
    ∧ (listGuestItems syncWorld).isEmpty = false
    ∧ (∀ j, j < (validOf (listGuestItems syncWorld)).length →
        (respMid j).status ≠ 401)
    ∧ (syncGuestCartToServer respMid syncWorld).1
        = { synced := 2, attempted := 3, unauthorized := false }
    ∧ (syncGuestCartToServer respMid syncWorld).2.1 = clearGuestCart syncWorld
    ∧ ((syncGuestCartToServer respMid syncWorld).2.2).length = 3 := by
  have h := C2_sync_continues_past_failures syncWorld respMid (by decide) (by decide)
    (by decide)
  refine ⟨by decide, by decide, by decide, ?_, ?_, ?_⟩
  · rw [h]; decide
  · rw [h]
  · rw [h]; decide

/-- C3: syncGuestCartToServer is a zero-effect operation both when the
caller is not logged in and when the listed guest cart is empty: it returns
synced 0, attempted 0, issues no request, and leaves storage unchanged. -/
theorem C3_sync_zero_effect (w : World) (responses : ℕ → Resp) :
    (isLoggedIn w = false →
      syncGuestCartToServer responses w
        = ({ synced := 0, attempted := 0, unauthorized := false }, w, []))
    ∧ ((listGuestItems w).isEmpty = true →
      syncGuestCartToServer responses w
        = ({ synced := 0, attempted := 0, unauthorized := false }, w, [])) := by
  constructor
  · intro h
    simp [syncGuestCartToServer, h]
  · intro h
    by_cases ha : isLoggedIn w = true
    · simp [syncGuestCartToServer, ha, h]
    · simp [syncGuestCartToServer, Bool.eq_false_iff.2 ha]

/-- C3 witness: a logged-out world with a non-empty cart and a logged-in
world with an empty cart both give the zero-effect result with no request
and unchanged storage. -/
theorem C3_witness :
    isLoggedIn loggedOutCartWorld = false
    ∧ (listGuestItems loggedOutCartWorld).isEmpty = false
    ∧ syncGuestCartToServer respOk loggedOutCartWorld
        = ({ synced := 0, attempted := 0, unauthorized := false }, loggedOutCartWorld, [])
    ∧ isLoggedIn loggedInEmptyWorld = true
    ∧ (listGuestItems loggedInEmptyWorld).isEmpty = true
    ∧ syncGuestCartToServer respOk loggedInEmptyWorld
        = ({ synced := 0, attempted := 0, unauthorized := false }, loggedInEmptyWorld, []) :=
  ⟨by decide, by decide,
   (C3_sync_zero_effect loggedOutCartWorld respOk).1 (by decide),
   by decide, by decide,
   (C3_sync_zero_effect loggedInEmptyWorld respOk).2 (by decide)⟩

/-- C10: entries whose cached product id does not normalize to a finite
positive number are skipped without a request yet still counted in
attempted.  When every issued request succeeds, synced equals the number of
valid entries, so synced plus the number of invalid entries equals
attempted, exactly one request per valid entry is issued, and the guest
cache is still cleared. -/
theorem C10_sync_counts_invalid_entries (w : World) (responses : ℕ → Resp)
    (hauth : isLoggedIn w = true)
    (hne : (listGuestItems w).isEmpty = false)
    (hok : ∀ j, j < (validOf (listGuestItems w)).length → (responses j).ok = true) :
    syncGuestCartToServer responses w
      = ({ synced := (validOf (listGuestItems w)).length,
           attempted := (listGuestItems w).length, unauthorized := false },
         clearGuestCart w, (validOf (listGuestItems w)).map reqOf)
    ∧ (validOf (listGuestItems w)).length
        + ((listGuestItems w).filter (fun e => skipCond e)).length
        = (listGuestItems w).length := by
  constructor
  · rw [sync_unfold_main w responses hauth hne]
    rw [syncLoop_no401 responses (listGuestItems w) 0 0
      (fun j hj => by
        rw [Nat.zero_add]
        exact ok_status_ne_401 _ (hok j hj))]
    rw [countOkFrom_all_ok responses (validOf (listGuestItems w)).length 0
      (fun j hj => by rw [Nat.zero_add]; exact hok j hj)]
    simp
  · exact length_filter_split skipCond (listGuestItems w)

/-- C10 witness: a logged-in world listing a valid id 1, an entry whose
cached id resolves to -7 (skipped without a request), and a valid id 3;
with all requests succeeding the result is synced 2, attempted 3, two
issued requests, and a cleared cache. -/
theorem C10_witness :
    isLoggedIn syncWorldInvalid = true
    ∧ (listGuestItems syncWorldInvalid).length = 3
    ∧ (validOf (listGuestItems syncWorldInvalid)).length = 2
    ∧ (syncGuestCartToServer respOk syncWorldInvalid).1
        = { synced := 2, attempted := 3, unauthorized := false }
    ∧ (syncGuestCartToServer respOk syncWorldInvalid).2.1
        = clearGuestCart syncWorldInvalid
    ∧ ((syncGuestCartToServer respOk syncWorldInvalid).2.2).length = 2 := by
  have h := (C10_sync_counts_invalid_entries syncWorldInvalid respOk (by decide)
    (by decide) (by decide)).1
  refine ⟨by decide, by decide, by decide, ?_, ?_, ?_⟩
  · rw [h]; decide
  · rw [h]
  · rw [h]; decide

/-- C4 as amended: for two products resolving to the same truthy finite id,
with the finite numeric quantities floored and clamped at one on each call,
adding the first then the second onto a cart without that id leaves exactly
one entry for that id whose quantity is the sum of the two clamped
quantities, and whose stored snapshot equals the snapshot derived from the
product argument of the latest call whenever that snapshot has a finite id
and a finite price (the amendment: a non-finite id or price field does not
survive the JSON round trip unchanged). -/
theorem C4_addGuestItem_accumulates (p1 p2 : JsVal) (q1 q2 : ℚ)
    (now1 now2 : String) (w : World)
    (hid : (toGuestProductSnapshot p1).id = (toGuestProductSnapshot p2).id)
    (ht : (toGuestProductSnapshot p2).id.truthy = true)
    (hfin : (toGuestProductSnapshot p2).id.isFiniteJ = true)
    (hpr : (toGuestProductSnapshot p2).price.isFiniteJ = true)
    (hfresh : listGet (getGuestCart w).items
        (toGuestProductSnapshot p2).id.toJsString = none) :
    listGet (getGuestCart (addGuestItem p2 (.num (.fin q2)) now2
        (addGuestItem p1 (.num (.fin q1)) now1 w))).items
        (toGuestProductSnapshot p2).id.toJsString
      = some { qty := .fin (((max 1 ⌊q1⌋ + max 1 ⌊q2⌋ : ℤ) : ℚ)),
               product := toGuestProductSnapshot p2 }
    ∧ ((getGuestCart (addGuestItem p2 (.num (.fin q2)) now2
          (addGuestItem p1 (.num (.fin q1)) now1 w))).items.map Prod.fst).count
        (toGuestProductSnapshot p2).id.toJsString = 1 := by
  have ht1 : (toGuestProductSnapshot p1).id.truthy = true := by rw [hid]; exact ht
  have hE1 : (1 : ℤ) ≤ max 1 ⌊q1⌋ := le_max_left _ _
  have hE2 : (1 : ℤ) ≤ max 1 ⌊q2⌋ := le_max_left _ _
  have hw1 : (getGuestCart (addGuestItem p1 (.num (.fin q1)) now1 w)).items
      = (listSet (getGuestCart w).items (toGuestProductSnapshot p2).id.toJsString
          { qty := .fin ((max 1 ⌊q1⌋ : ℤ) : ℚ),
            product := toGuestProductSnapshot p1 }).filterMap roundEntry := by
    rw [getGuestCart_addGuestItem p1 q1 now1 w ht1, hid, hfresh]
    simp [JNum.addJ, ratAdd_eq]
  have hlook1 : listGet (getGuestCart (addGuestItem p1 (.num (.fin q1)) now1 w)).items
      (toGuestProductSnapshot p2).id.toJsString
      = some { qty := .fin ((max 1 ⌊q1⌋ : ℤ) : ℚ),
               product := rereadSnapshot (toGuestProductSnapshot p2).id.toJsString
                 (toGuestProductSnapshot p1) } := by
    rw [hw1, listGet_filterMap_roundEntry _ _
      (listSet_nodup _ _ _ (getGuestCart_nodup w)), listGet_listSet_self]
    exact roundItem_posInt _ _ _ hE1
  have htr : (JNum.fin ((max 1 ⌊q1⌋ : ℤ) : ℚ)).truthy = true := by
    simp only [JNum.truthy, decide_eq_true_eq, ne_eq, Int.cast_eq_zero]
    omega
  have hw2 : (getGuestCart (addGuestItem p2 (.num (.fin q2)) now2
      (addGuestItem p1 (.num (.fin q1)) now1 w))).items
      = (listSet (getGuestCart (addGuestItem p1 (.num (.fin q1)) now1 w)).items
          (toGuestProductSnapshot p2).id.toJsString
          { qty := .fin (((max 1 ⌊q1⌋ + max 1 ⌊q2⌋ : ℤ) : ℚ)),
            product := toGuestProductSnapshot p2 }).filterMap roundEntry := by
    rw [getGuestCart_addGuestItem p2 q2 now2 _ ht, hlook1]
    dsimp only []
    rw [if_pos htr]
    dsimp only [JNum.addJ]
    rw [ratAdd_eq]
    rw [show ((max 1 ⌊q1⌋ : ℤ) : ℚ) + ((max 1 ⌊q2⌋ : ℤ) : ℚ)
        = (((max 1 ⌊q1⌋ + max 1 ⌊q2⌋ : ℤ)) : ℚ) from by push_cast; ring]
  have hlook2 : listGet (getGuestCart (addGuestItem p2 (.num (.fin q2)) now2
      (addGuestItem p1 (.num (.fin q1)) now1 w))).items
      (toGuestProductSnapshot p2).id.toJsString
      = some { qty := .fin (((max 1 ⌊q1⌋ + max 1 ⌊q2⌋ : ℤ) : ℚ)),
               product := toGuestProductSnapshot p2 } := by
    rw [hw2, listGet_filterMap_roundEntry _ _
      (listSet_nodup _ _ _ (getGuestCart_nodup _)), listGet_listSet_self]
    have hri := roundItem_posInt (toGuestProductSnapshot p2).id.toJsString
      (max 1 ⌊q1⌋ + max 1 ⌊q2⌋) (toGuestProductSnapshot p2) (by omega)
    rw [rereadSnapshot_eq _ _ hfin ht hpr (toGuestProductSnapshot_trimmed p2)] at hri
    exact hri
  exact ⟨hlook2,
    List.count_eq_one_of_mem (getGuestCart_nodup _) (listGet_isSome_mem _ _ _ hlook2)⟩

/-- C4 counterexample: addGuestItem with a NaN price accumulates quantity 5
as specified, but the stored snapshot does not equal the snapshot derived
from the latest call: the NaN price serialises to null and reads back as 0,
while the derived snapshot keeps price NaN. -/
theorem C4_counterexample :
    ((listGet (getGuestCart (addGuestItem prodNanPrice (.num (.fin 3)) "t2"
        (addGuestItem prodNanPrice (.num (.fin 2)) "t1" emptyWorld))).items "1").map
      (fun it => it.product.price)) = some (.fin 0)
    ∧ (toGuestProductSnapshot prodNanPrice).price = .nan
    ∧ ((listGet (getGuestCart (addGuestItem prodNanPrice (.num (.fin 3)) "t2"
        (addGuestItem prodNanPrice (.num (.fin 2)) "t1" emptyWorld))).items "1").map
      (fun it => it.qty)) = some (.fin 5) :=
  ⟨by decide, by decide, by decide⟩

/-- C4 witness: adding product id 42 with quantity 2 then 3 onto the empty
cart yields exactly one entry under key 42 with quantity 5 and the snapshot
of the latest call. -/
theorem C4_witness :
    (toGuestProductSnapshot prod42).id.truthy = true
    ∧ listGet (getGuestCart emptyWorld).items
        (toGuestProductSnapshot prod42).id.toJsString = none
    ∧ listGet (getGuestCart (addGuestItem prod42 (.num (.fin 3)) "t2"
        (addGuestItem prod42 (.num (.fin 2)) "t1" emptyWorld))).items
        (toGuestProductSnapshot prod42).id.toJsString
      = some { qty := .fin 5, product := toGuestProductSnapshot prod42 }
    ∧ ((getGuestCart (addGuestItem prod42 (.num (.fin 3)) "t2"
        (addGuestItem prod42 (.num (.fin 2)) "t1" emptyWorld))).items.map
        Prod.fst).count (toGuestProductSnapshot prod42).id.toJsString = 1 := by
  have h := C4_addGuestItem_accumulates prod42 prod42 2 3 "t1" "t2" emptyWorld rfl
    (by decide) (by decide) (by decide) (by decide)
  refine ⟨by decide, by decide, ?_, h.2⟩
  rw [h.1]
  decide

/-- C5 as amended: setGuestItemQty with a resolvable id and a finite
numeric quantity floors and clamps the value at zero; a clamped value of
zero deletes the entry and throws no error; a positive clamped value sets
the exact quantity of an existing entry; a missing entry is NOT created (the
amendment: the source only updates entries that already exist); and
removeGuestItem is definitionally setGuestItemQty with quantity zero. -/
theorem C5_setGuestItemQty_contract (pid : JsVal) (v : ℚ) (now : String) (w : World)
    (hid : jsTrim (pid.jsOr (.str "")).toStr ≠ "") :
    (max 0 ⌊v⌋ = 0 →
      listGet (getGuestCart (setGuestItemQty pid (.num (.fin v)) now w)).items
        (jsTrim (pid.jsOr (.str "")).toStr) = none)
    ∧ (∀ n : ℤ, max 0 ⌊v⌋ = n → 0 < n →
        (listGet (getGuestCart w).items (jsTrim (pid.jsOr (.str "")).toStr)).isSome
          = true →
        (listGet (getGuestCart (setGuestItemQty pid (.num (.fin v)) now w)).items
          (jsTrim (pid.jsOr (.str "")).toStr)).map GuestItem.qty
          = some (.fin (n : ℚ)))
    ∧ (0 < max 0 ⌊v⌋ →
        listGet (getGuestCart w).items (jsTrim (pid.jsOr (.str "")).toStr) = none →
        listGet (getGuestCart (setGuestItemQty pid (.num (.fin v)) now w)).items
          (jsTrim (pid.jsOr (.str "")).toStr) = none)
    ∧ removeGuestItem pid now w = setGuestItemQty pid (.num (.fin 0)) now w := by
  refine ⟨?_, ?_, ?_, rfl⟩
  · intro h0
    rw [getGuestCart_setGuestItemQty pid v now w hid]
    rw [if_pos (by omega)]
    have hnd : ((listDel (getGuestCart w).items
        (jsTrim (pid.jsOr (.str "")).toStr)).map Prod.fst).Nodup := by
      apply List.Nodup.sublist _ (getGuestCart_nodup w)
      exact List.Sublist.map Prod.fst (List.filter_sublist _)
    rw [listGet_filterMap_roundEntry _ _ hnd]
    rw [listGet_listDel_self]
    rfl
  · intro n hn hpos hsome
    rw [getGuestCart_setGuestItemQty pid v now w hid]
    rw [if_neg (by omega), if_pos hsome]
    rw [listGet_filterMap_roundEntry _ _
      (by rw [map_fst_mapSetQty]; exact getGuestCart_nodup w)]
    rw [listGet_mapSetQty]
    obtain ⟨it, hit⟩ := Option.isSome_iff_exists.1 hsome
    rw [hit]
    have hri := roundItem_posInt (jsTrim (pid.jsOr (.str "")).toStr) n it.product
      (by omega)
    rw [hn]
    exact congrArg (Option.map GuestItem.qty) hri
  · intro hpos hnone
    rw [getGuestCart_setGuestItemQty pid v now w hid]
    rw [if_neg (by omega)]
    rw [show (listGet (getGuestCart w).items
        (jsTrim (pid.jsOr (.str "")).toStr)).isSome = false from by rw [hnone]; rfl]
    simp only [Bool.false_eq_true, if_false]
    rw [listGet_filterMap_roundEntry _ _ (getGuestCart_nodup w), hnone]
    rfl

/-- C5 counterexample: on the empty cart, setGuestItemQty with id 7 and
quantity 3 does not create an entry, while the claim as stated requires the
entry to be created with quantity 3. -/
theorem C5_counterexample :
    (getGuestCart (setGuestItemQty (.str "7") (.num (.fin 3)) "t" emptyWorld)).items = []
    ∧ listGet (getGuestCart (setGuestItemQty (.str "7") (.num (.fin 3)) "t"
        emptyWorld)).items "7" = none :=
  ⟨by decide, by decide⟩

/-- C5 witness: on a cart listing id 2, setting quantity 5 updates the
entry to exactly 5, setting quantity 0 deletes it without error, and
removeGuestItem coincides with setGuestItemQty at zero. -/
theorem C5_witness :
    jsTrim ((JsVal.str "2").jsOr (.str "")).toStr ≠ ""
    ∧ (listGet (getGuestCart syncWorld).items
        (jsTrim ((JsVal.str "2").jsOr (.str "")).toStr)).isSome = true
    ∧ (listGet (getGuestCart (setGuestItemQty (.str "2") (.num (.fin 5)) "t"
        syncWorld)).items (jsTrim ((JsVal.str "2").jsOr (.str "")).toStr)).map
        GuestItem.qty = some (.fin 5)
    ∧ listGet (getGuestCart (setGuestItemQty (.str "2") (.num (.fin 0)) "t"
        syncWorld)).items (jsTrim ((JsVal.str "2").jsOr (.str "")).toStr) = none
    ∧ removeGuestItem (.str "2") "t" syncWorld
        = setGuestItemQty (.str "2") (.num (.fin 0)) "t" syncWorld := by
  have h5 := C5_setGuestItemQty_contract (.str "2") 5 "t" syncWorld (by decide)
  have h0 := C5_setGuestItemQty_contract (.str "2") 0 "t" syncWorld (by decide)
  refine ⟨by decide, by decide, ?_, h0.1 (by decide), h0.2.2.2⟩
  have := h5.2.1 5 (by decide) (by decide) (by decide)
  rw [this]
  decide

/-- C9 as amended: addGuestItem is a no-op exactly on the falsy-id cases:
whenever the Number coercion of the product id chain yields 0 or NaN, the
call leaves the world (hence the guest cart storage) completely unchanged
and surfaces no error.  The amendment: an id resolving to a negative or
otherwise non-positive-but-truthy number is NOT rejected (see the
counterexample with id -5), so the guard is falsiness, not positivity. -/
theorem C9_addGuestItem_noop_on_falsy_id (p q : JsVal) (now : String) (w : World)
    (h : (toGuestProductSnapshot p).id.truthy = false) :
    addGuestItem p q now w = w := by
  have hid : jsTrim ((JsVal.num (toGuestProductSnapshot p).id).jsOr (.str "")).toStr
      = "" := by
    have hv : (JsVal.num (toGuestProductSnapshot p).id).truthy = false := h
    rw [JsVal.jsOr, hv]
    rfl
  simp only [addGuestItem, hid]
  rfl

/-- C9 counterexample: a product whose id resolves to the negative number -5
cannot be resolved to a positive number, yet addGuestItem is not a no-op:
it creates the entry under key -5. -/
theorem C9_counterexample :
    (toGuestProductSnapshot prodNeg).id = .fin (-5)
    ∧ listGet (getGuestCart (addGuestItem prodNeg (.num (.fin 1)) "t"
        emptyWorld)).items "-5"
      = some { qty := .fin 1, product := toGuestProductSnapshot prodNeg } :=
  ⟨by decide, by decide⟩

/-- C9 witness: a product whose id field is NaN resolves to a falsy id, and
adding it to the empty world leaves the world unchanged. -/
theorem C9_witness :
    (toGuestProductSnapshot (JsVal.obj (.cons "id" (.num .nan) .nil))).id.truthy = false
    ∧ addGuestItem (JsVal.obj (.cons "id" (.num .nan) .nil)) (.num (.fin 2)) "t"
        emptyWorld = emptyWorld :=
  ⟨by decide, C9_addGuestItem_noop_on_falsy_id _ _ _ _ (by decide)⟩

/-- C6 as amended: for every storage state (hence after every sequence of
mutator calls, each of which only rewrites storage), the guest cart observed
through getGuestCart and listGuestItems has no entry with quantity less than
or equal to zero, and every quantity is either a positive integer or
Infinity.  The amendment: an adversarial stored blob (for example the valid
JSON literal 1e999, which JSON.parse reads as Infinity) can produce the
quantity Infinity, which is positive but not an integer. -/
theorem C6_guest_cart_quantities_positive (w : World) :
    (∀ kv ∈ (getGuestCart w).items,
      kv.2.qty.jle (.fin 0) = false ∧
      (kv.2.qty = .pinf ∨ ∃ n : ℕ, 1 ≤ n ∧ kv.2.qty = .fin (n : ℚ)))
    ∧ (∀ e ∈ listGuestItems w,
      e.qty.jle (.fin 0) = false ∧
      (e.qty = .pinf ∨ ∃ n : ℕ, 1 ≤ n ∧ e.qty = .fin (n : ℚ))) := by
  have hshape : ∀ kv ∈ (getGuestCart w).items,
      kv.2.qty = .pinf ∨ ∃ n : ℕ, 1 ≤ n ∧ kv.2.qty = .fin (n : ℚ) :=
    fun kv hkv => (getGuestCart_facts w kv hkv).2
  have hjle : ∀ x : JNum, (x = .pinf ∨ ∃ n : ℕ, 1 ≤ n ∧ x = .fin (n : ℚ)) →
      x.jle (.fin 0) = false := by
    rintro x (rfl | ⟨n, hn, rfl⟩)
    · rfl
    · simp only [JNum.jle, decide_eq_false_iff_not, not_le]
      exact_mod_cast hn
  constructor
  · exact fun kv hkv => ⟨hjle _ (hshape kv hkv), hshape kv hkv⟩
  · intro e he
    obtain ⟨kv, hkv, rfl⟩ := List.mem_map.1 he
    have hsh := hshape kv hkv
    have hqe : kv.2.qty.numOr (.fin 0) = kv.2.qty := by
      rcases hsh with hp | ⟨n, hn, hq⟩
      · rw [hp]; rfl
      · rw [hq]
        simp only [JNum.numOr, JNum.truthy, if_pos]
        rw [if_pos]
        simp only [decide_eq_true_eq]
        exact_mod_cast by omega
    refine ⟨?_, ?_⟩
    · show (kv.2.qty.numOr (.fin 0)).jle (.fin 0) = false
      rw [hqe]
      exact hjle _ hsh
    · show kv.2.qty.numOr (.fin 0) = .pinf ∨ _
      rw [hqe]
      exact hsh

/-- C6 counterexample: the stored blob with quantity Infinity (reachable as
the JSON literal 1e999) survives normalization: the observed cart has one
entry with quantity Infinity, which is not a positive integer, refuting the
claim that every present quantity is a positive integer. -/
theorem C6_counterexample :
    (getGuestCart advWorld).items.map (fun kv => (kv.1, kv.2.qty)) = [("5", .pinf)]
    ∧ (∀ n : ℕ, (JNum.pinf : JNum) ≠ .fin (n : ℚ)) :=
  ⟨by decide, fun _ h => JNum.noConfusion h⟩

/-- C6 witness: on a world with a normal three-entry cart, the first listed
entry has a quantity that is positive and a positive integer. -/
theorem C6_witness :
    (("1", ({ qty := JNum.fin 1, product := bareSnapshot 1 } : GuestItem))
        ∈ (getGuestCart syncWorld).items)
    ∧ (JNum.fin 1).jle (.fin 0) = false
    ∧ ((JNum.fin 1 : JNum) = .pinf
        ∨ ∃ n : ℕ, 1 ≤ n ∧ (JNum.fin 1 : JNum) = .fin (n : ℚ)) := by
  have hmem : (("1", ({ qty := JNum.fin 1, product := bareSnapshot 1 } : GuestItem))
      ∈ (getGuestCart syncWorld).items) := by decide
  exact ⟨hmem, ((C6_guest_cart_quantities_positive syncWorld).1 _ hmem).1,
    ((C6_guest_cart_quantities_positive syncWorld).1 _ hmem).2⟩

/-- C7: persisting a well-formed guest cart (distinct nonempty trimmed keys,
positive integer quantities: exactly the data-model cart entity and the
shape the module itself produces) with setGuestCart and reading it back with
getGuestCart preserves the list of (productId, quantity) pairs exactly: no
pair is added, dropped or altered. -/
theorem C7_cart_roundtrip (c : Cart) (now : String) (w : World)
    (h : WellFormedCart c) :
    (getGuestCart (setGuestCart c now w)).items.map (fun kv => (kv.1, kv.2.qty))
      = c.items.map (fun kv => (kv.1, kv.2.qty)) := by
  obtain ⟨hnd, hfacts⟩ := h
  rw [getGuestCart_setGuestCart c now w
    (fun kv hkv => ⟨(hfacts kv hkv).1, (hfacts kv hkv).2.1⟩) hnd]
  clear hnd
  revert hfacts
  generalize c.items = l
  intro hfacts
  induction l with
  | nil => rfl
  | cons kv rest ih =>
      obtain ⟨-, -, n, hn1, hq⟩ := hfacts kv (List.mem_cons_self kv rest)
      rw [List.filterMap_cons,
        roundEntry_some_of kv _ (roundItem_of_qty_posNat kv.1 kv.2 n hn1 hq)]
      simp only [List.map_cons]
      rw [ih (fun kv2 h2 => hfacts kv2 (List.mem_cons_of_mem kv h2))]
      rw [hq]

/-- C7 witness: a concrete two-entry well-formed cart round trips with its
(productId, quantity) pairs intact. -/
theorem C7_witness :
    WellFormedCart wfCart
    ∧ (getGuestCart (setGuestCart wfCart "t" emptyWorld)).items.map
        (fun kv => (kv.1, kv.2.qty))
      = wfCart.items.map (fun kv => (kv.1, kv.2.qty)) := by
  have hwf : WellFormedCart wfCart := by
    constructor
    · decide
    · intro kv hkv
      simp only [wfCart, List.mem_cons, List.not_mem_nil, or_false] at hkv
      rcases hkv with rfl | rfl
      · exact ⟨by decide, by decide, 2, by omega, by decide⟩
      · exact ⟨by decide, by decide, 7, by omega, by decide⟩
  exact ⟨hwf, C7_cart_roundtrip wfCart "t" emptyWorld hwf⟩

/-- C8 as amended: saveAuth writes the record only to the selected scope and
leaves the other scope untouched, so the two scopes can hold records
simultaneously; after clearAuth followed by at most one saveAuth, at most
one scope holds a record.  The amendment: the claimed never-both invariant
fails for saveAuth sequences without an intervening clearAuth (see the
counterexample). -/
theorem C8_saveAuth_scopes (w : World) (data : JsVal) (remember : Bool)
    (now : String) :
    (((saveAuth data remember now (clearAuth w)).sessionAuth.isStored)
       && ((saveAuth data remember now (clearAuth w)).localAuth.isStored)) = false
    ∧ (saveAuth data true now w).sessionAuth = w.sessionAuth
    ∧ (saveAuth data false now w).localAuth = w.localAuth := by
  refine ⟨?_, ?_, ?_⟩ <;>
    by_cases h : ((data.optChain "access").jsOr .null).truthy = true <;>
    cases remember <;>
    simp [saveAuth, clearAuth, h, Slot.isStored]

/-- C8 counterexample: saveAuth with remember true then saveAuth with
remember false, starting from the empty world, leaves an auth record stored
in both scopes at once, refuting the claimed at-most-one-scope invariant. -/
theorem C8_counterexample :
    (saveAuth authData false "t2" (saveAuth authData true "t1"
        emptyWorld)).sessionAuth.isStored = true
    ∧ (saveAuth authData false "t2" (saveAuth authData true "t1"
        emptyWorld)).localAuth.isStored = true :=
  ⟨by decide, by decide⟩

end CropCart
